import Mathlib

/-!
Tenant consumer manager of go-messaging-system.

A shallow embedding of `internal/consumer/manager.go` and of the administrative
handlers of `internal/app/server.go`.

* The AMQP connection is an explicit value: it records every call issued to the
  broker, in order, and carries a fault function that decides, from the calls
  issued so far, whether the next call fails.
* `sync.Mutex` is a boolean; `Lock` on a held mutex never returns, which the
  embedding reports as the outcome `blocked`.
* A Go `error` is its message; `nil` is `none`.
* A goroutine started with `go` is recorded in the list `spawned`.
-/

namespace MessagingSystem

/-! ## Go values -/

/-- A Go `error`, identified with the text of `Error()`. -/
abbrev GoError := String

/-- An `amqp091.Table` restricted to string values, in source order. -/
abbrev Table := List (String × String)

/-- State of a `chan struct{}` that is only ever closed, never sent on. -/
inductive StopChanState where
  | isOpen
  | isClosed
deriving DecidableEq, Repr

/-- What a call of a Go function did: it returned, it panicked, or it never
returned because it waits for a mutex that nobody releases. -/
inductive Outcome (σ α : Type) where
  | returned (state : σ) (value : α)
  | panicked (state : σ) (msg : String)
  | blocked (state : σ)

/-! ## The broker connection -/

/-- One call of the `amqp091` client, with the arguments manager.go passes. -/
inductive BrokerCall where
  | Channel
  | Qos (ch : Nat) (prefetchCount prefetchSize : Int) (global : Bool)
  | QueueDeclare (ch : Nat) (name : String) (durable autoDelete exclusive noWait : Bool)
      (args : Table)
  | Consume (ch : Nat) (queue consumer : String) (autoAck exclusive noLocal noWait : Bool)
  | QueueDelete (ch : Nat) (queue : String) (ifUnused ifEmpty noWait : Bool)
  | ChannelClose (ch : Nat)
  | ConnectionClose
deriving DecidableEq, Repr

/-- The `*amqp091.Connection` together with the broker behind it.
`calls` is the log of calls issued so far (oldest first), `channels` the number
of channels opened so far (the next channel gets this number), and `fault`
decides whether a call fails given the calls issued before it. -/
structure Connection where
  calls : List BrokerCall
  channels : Nat
  fault : List BrokerCall → BrokerCall → Option GoError

/-- Issue a call that returns only an error. -/
def Connection.issue (c : Connection) (call : BrokerCall) : Connection × Option GoError :=
  ({ c with calls := c.calls ++ [call] }, c.fault c.calls call)

/-- The method `Connection.Channel()`: a fresh channel number on success. -/
def Connection.Channel (c : Connection) : Connection × Except GoError Nat :=
  match c.fault c.calls BrokerCall.Channel with
  | some e => ({ c with calls := c.calls ++ [BrokerCall.Channel] }, Except.error e)
  | none =>
    ({ c with calls := c.calls ++ [BrokerCall.Channel], channels := c.channels + 1 },
      Except.ok c.channels)

/-- The name a broker reports in `queue.declare-ok`: the requested name, or a
broker-generated one when the requested name is empty (AMQP 0-9-1). -/
def declaredName (name : String) : String :=
  if name = "" then "amq.gen" else name

/-- The method `Channel.QueueDeclare`: the `Queue.Name` of the reply on success. -/
def Connection.QueueDeclare (c : Connection) (ch : Nat) (name : String)
    (durable autoDelete exclusive noWait : Bool) (args : Table) :
    Connection × Except GoError String :=
  match c.issue (BrokerCall.QueueDeclare ch name durable autoDelete exclusive noWait args) with
  | (c1, some e) => (c1, Except.error e)
  | (c1, none) => (c1, Except.ok (declaredName name))

/-! ## Consumers and the manager -/

/-- The interface `MessageHandler`. A handler is an arbitrary Go object; its
hidden state is represented by the payloads it has been invoked with so far
(oldest first), which is the first argument of `ProcessMessage`. -/
structure MessageHandler where
  ProcessMessage : List (List UInt8) → List UInt8 → Option GoError

/-- The struct `TenantConsumer`. `handler` is an interface value and may be nil. -/
structure TenantConsumer where
  TenantID : String
  Channel : Nat
  Queue : String
  StopChan : StopChanState
  WorkerCount : Int
  handler : Option MessageHandler

/-- A worker goroutine started by `startWorkers`, identified by the consumer it
serves and the consumer tag of its delivery stream. -/
structure Worker where
  TenantID : String
  Channel : Nat
  Queue : String
  consumerTag : String
deriving DecidableEq, Repr

/-- A Go `map[string]*TenantConsumer`. -/
abbrev Registry := List (String × TenantConsumer)

/-- The map read `m[k]` with the comma-ok result as an option. -/
def Registry.get : Registry → String → Option TenantConsumer
  | [], _ => none
  | (k', v) :: rest, k => if k' = k then some v else Registry.get rest k

/-- The builtin `delete(m, k)`. -/
def Registry.delete (m : Registry) (k : String) : Registry :=
  m.filter (fun p => decide (p.1 ≠ k))

/-- The map write `m[k] = v`. -/
def Registry.set (m : Registry) (k : String) (v : TenantConsumer) : Registry :=
  (k, v) :: Registry.delete m k

/-- A write through the pointer stored under `k`. -/
def Registry.modify (m : Registry) (k : String) (f : TenantConsumer → TenantConsumer) :
    Registry :=
  m.map (fun p => if p.1 = k then (p.1, f p.2) else p)

/-- The struct `TenantManager`, with the goroutines it has started so far. -/
structure TenantManager where
  mu : Bool
  tenants : Registry
  amqpConn : Connection
  spawned : List Worker

/-- The method `sync.Mutex.Lock`: `none` when the mutex is held. -/
def TenantManager.Lock (tm : TenantManager) : Option TenantManager :=
  if tm.mu then none else some { tm with mu := true }

/-- The method `sync.Mutex.Unlock`. -/
def TenantManager.Unlock (tm : TenantManager) : TenantManager :=
  { tm with mu := false }

/-- The statement `defer tm.mu.Unlock()`: runs on return and on panic. -/
def deferUnlock {α : Type} : Outcome TenantManager α → Outcome TenantManager α
  | Outcome.returned tm v => Outcome.returned tm.Unlock v
  | Outcome.panicked tm msg => Outcome.panicked tm.Unlock msg
  | Outcome.blocked tm => Outcome.blocked tm

/-- The function `NewTenantManager`. Its call of `monitorConnection` registers
a close listener and starts a goroutine that only logs; neither touches the
state modelled here. -/
def NewTenantManager (conn : Connection) : TenantManager :=
  { mu := false, tenants := [], amqpConn := conn, spawned := [] }

/-- The consumer tag `fmt.Sprintf("%s-worker-%d", tc.TenantID, i)`. -/
def workerTag (tenantID : String) (i : Nat) : String :=
  tenantID ++ "-worker-" ++ toString i

/-- The loop of `startWorkers`, from index `i` with `todo` iterations left:
register consumer `i`, return on failure, otherwise start its goroutine. -/
def startWorkersFrom (tc : TenantConsumer) :
    Nat → Nat → Connection → List Worker → Connection × List Worker × Option GoError
  | 0, _, conn, spawned => (conn, spawned, none)
  | todo + 1, i, conn, spawned =>
    match conn.issue (BrokerCall.Consume tc.Channel tc.Queue (workerTag tc.TenantID i)
        false false false false) with
    | (conn1, some err) => (conn1, spawned, some ("failed to start consumer: " ++ err))
    | (conn1, none) =>
      startWorkersFrom tc todo (i + 1) conn1
        (spawned ++ [{ TenantID := tc.TenantID, Channel := tc.Channel, Queue := tc.Queue,
                        consumerTag := workerTag tc.TenantID i }])

/-- The method `TenantConsumer.startWorkers`: `for i := int32(0); i < tc.WorkerCount; i++`
runs `tc.WorkerCount` times, and not at all when `tc.WorkerCount ≤ 0`. The
counter stays below `tc.WorkerCount`, an int32, so it never wraps. -/
def startWorkers (tc : TenantConsumer) (conn : Connection) (spawned : List Worker) :
    Connection × List Worker × Option GoError :=
  startWorkersFrom tc tc.WorkerCount.toNat 0 conn spawned

/-- The queue name `fmt.Sprintf("tenant_%s_queue", tenantID)`. -/
def queueNameOf (tenantID : String) : String :=
  "tenant_" ++ tenantID ++ "_queue"

/-- The dead-letter arguments of the queue declared by `AddTenant`. -/
def deadLetterArgs (tenantID : String) : Table :=
  [("x-dead-letter-exchange", "dlx"), ("x-dead-letter-routing-key", "dl." ++ tenantID)]

/-- The body of `AddTenant` after `tm.mu.Lock()`. -/
def AddTenantLocked (tm : TenantManager) (tenantID : String) (workerCount : Int)
    (handler : Option MessageHandler) : TenantManager × Option GoError :=
  if (tm.tenants.get tenantID).isSome then
    (tm, some ("tenant " ++ tenantID ++ " already exists"))
  else
    match tm.amqpConn.Channel with
    | (c1, Except.error err) =>
      ({ tm with amqpConn := c1 }, some ("failed to create channel: " ++ err))
    | (c1, Except.ok ch) =>
      match c1.issue (BrokerCall.Qos ch 1 0 false) with
      | (c2, some err) =>
        ({ tm with amqpConn := (c2.issue (BrokerCall.ChannelClose ch)).1 },
          some ("failed to set QoS: " ++ err))
      | (c2, none) =>
        match c2.QueueDeclare ch (queueNameOf tenantID) true false false false
            (deadLetterArgs tenantID) with
        | (c3, Except.error err) =>
          ({ tm with amqpConn := (c3.issue (BrokerCall.ChannelClose ch)).1 },
            some ("failed to declare queue: " ++ err))
        | (c3, Except.ok qName) =>
          let consumer : TenantConsumer :=
            { TenantID := tenantID, Channel := ch, Queue := qName,
              StopChan := StopChanState.isOpen, WorkerCount := workerCount,
              handler := handler }
          match startWorkers consumer c3 tm.spawned with
          | (c4, sp, some err) =>
            ({ tm with amqpConn := (c4.issue (BrokerCall.ChannelClose ch)).1, spawned := sp },
              some ("failed to start workers: " ++ err))
          | (c4, sp, none) =>
            ({ tm with tenants := tm.tenants.set tenantID consumer, amqpConn := c4,
                       spawned := sp }, none)

/-- The method `TenantManager.AddTenant`. -/
def AddTenant (tm : TenantManager) (tenantID : String) (workerCount : Int)
    (handler : Option MessageHandler) : Outcome TenantManager (Option GoError) :=
  match tm.Lock with
  | none => Outcome.blocked tm
  | some tm1 =>
    let r := AddTenantLocked tm1 tenantID workerCount handler
    deferUnlock (Outcome.returned r.1 r.2)

/-- The statement `close(consumer.StopChan)` on a consumer whose channel is open. -/
def closeStopChan (c : TenantConsumer) : TenantConsumer :=
  { c with StopChan := StopChanState.isClosed }

/-- The body of `RemoveTenant` after `tm.mu.Lock()`. `close` of a channel that is
already closed panics. The consumer is reached through the pointer in the map,
so closing its `StopChan` is visible in the registry. -/
def RemoveTenantLocked (tm : TenantManager) (tenantID : String) :
    Outcome TenantManager (Option GoError) :=
  match tm.tenants.get tenantID with
  | none => Outcome.returned tm (some ("tenant " ++ tenantID ++ " not found"))
  | some consumer =>
    match consumer.StopChan with
    | StopChanState.isClosed => Outcome.panicked tm "close of closed channel"
    | StopChanState.isOpen =>
      let tm1 : TenantManager := { tm with tenants := tm.tenants.modify tenantID closeStopChan }
      match tm1.amqpConn.issue
          (BrokerCall.QueueDelete consumer.Channel consumer.Queue false false false) with
      | (c1, some err) =>
        Outcome.returned { tm1 with amqpConn := c1 } (some ("failed to delete queue: " ++ err))
      | (c1, none) =>
        match c1.issue (BrokerCall.ChannelClose consumer.Channel) with
        | (c2, some err) =>
          Outcome.returned { tm1 with amqpConn := c2 }
            (some ("failed to close channel: " ++ err))
        | (c2, none) =>
          Outcome.returned
            { tm1 with tenants := tm1.tenants.delete tenantID, amqpConn := c2 } none

/-- The method `TenantManager.RemoveTenant`. -/
def RemoveTenant (tm : TenantManager) (tenantID : String) :
    Outcome TenantManager (Option GoError) :=
  match tm.Lock with
  | none => Outcome.blocked tm
  | some tm1 => deferUnlock (RemoveTenantLocked tm1 tenantID)

/-- The method `TenantManager.GetTenant`; a nil pointer is `none`. -/
def GetTenant (tm : TenantManager) (tenantID : String) :
    Outcome TenantManager (Option TenantConsumer) :=
  match tm.Lock with
  | none => Outcome.blocked tm
  | some tm1 => deferUnlock (Outcome.returned tm1 (tm1.tenants.get tenantID))

/-- The loop `for tenantID := range tm.tenants` of `Close`, over the keys in the
order the range statement produces them. An error of `RemoveTenant` is only
logged; the loop goes on. -/
def CloseLoop : List String → TenantManager → Outcome TenantManager Unit
  | [], tm => Outcome.returned tm ()
  | tenantID :: rest, tm =>
    match RemoveTenant tm tenantID with
    | Outcome.returned tm1 _ => CloseLoop rest tm1
    | Outcome.panicked tm1 msg => Outcome.panicked tm1 msg
    | Outcome.blocked tm1 => Outcome.blocked tm1

/-- The body of `Close` after `tm.mu.Lock()`, for a given iteration order. -/
def CloseLocked (order : List String) (tm : TenantManager) :
    Outcome TenantManager (Option GoError) :=
  match CloseLoop order tm with
  | Outcome.returned tm1 _ =>
    match tm1.amqpConn.issue BrokerCall.ConnectionClose with
    | (c, some err) =>
      Outcome.returned { tm1 with amqpConn := c }
        (some ("failed to close AMQP connection: " ++ err))
    | (c, none) => Outcome.returned { tm1 with amqpConn := c } none
  | Outcome.panicked tm1 msg => Outcome.panicked tm1 msg
  | Outcome.blocked tm1 => Outcome.blocked tm1

/-- The method `TenantManager.Close`, ranging over the map in the order `order`. -/
def CloseIn (order : List String) (tm : TenantManager) :
    Outcome TenantManager (Option GoError) :=
  match tm.Lock with
  | none => Outcome.blocked tm
  | some tm1 => deferUnlock (CloseLocked order tm1)

/-- The method `TenantManager.Close`, ranging over the map in stored order. -/
def Close (tm : TenantManager) : Outcome TenantManager (Option GoError) :=
  CloseIn (tm.tenants.map Prod.fst) tm

/-! ## The worker goroutine -/

/-- An `amqp091.Delivery`, reduced to the fields the worker uses. -/
structure Delivery where
  DeliveryTag : Nat
  Body : List UInt8
deriving DecidableEq, Repr

/-- What one `select` of the worker observes: a delivery on `msgs`, `msgs`
closed (`ok` is false), or `StopChan` closed. -/
inductive SelectEvent where
  | delivery (msg : Delivery)
  | msgsClosed
  | stop
deriving DecidableEq, Repr

/-- What the worker does, in order: a handler call, `msg.Ack(multiple)` or
`msg.Nack(multiple, requeue)` on the delivery with the given tag. -/
inductive WorkerAction where
  | ProcessMessage (body : List UInt8)
  | Ack (tag : Nat) (multiple : Bool)
  | Nack (tag : Nat) (multiple requeue : Bool)
deriving DecidableEq, Repr

/-- Where the goroutine is after the events it was given. -/
inductive WorkerStatus where
  | selecting
  | exited
  | panicked
deriving DecidableEq, Repr

/-- The run of a worker: its actions, the payloads its handler has seen, and
its status. -/
structure WorkerRun where
  actions : List WorkerAction
  seen : List (List UInt8)
  status : WorkerStatus
deriving DecidableEq, Repr

/-- The goroutine body of `startWorkers` on the events its selects observe.
`seen` holds the payloads the handler was invoked with before. Calling
`ProcessMessage` on a nil handler panics. -/
def workerLoop (handler : Option MessageHandler) :
    List (List UInt8) → List SelectEvent → WorkerRun
  | seen, [] => { actions := [], seen := seen, status := WorkerStatus.selecting }
  | seen, SelectEvent.stop :: _ =>
    { actions := [], seen := seen, status := WorkerStatus.exited }
  | seen, SelectEvent.msgsClosed :: _ =>
    { actions := [], seen := seen, status := WorkerStatus.exited }
  | seen, SelectEvent.delivery msg :: rest =>
    match handler with
    | none => { actions := [], seen := seen, status := WorkerStatus.panicked }
    | some h =>
      match h.ProcessMessage seen msg.Body with
      | some _ =>
        let run := workerLoop handler (seen ++ [msg.Body]) rest
        { run with actions := WorkerAction.ProcessMessage msg.Body ::
            WorkerAction.Nack msg.DeliveryTag false true :: run.actions }
      | none =>
        let run := workerLoop handler (seen ++ [msg.Body]) rest
        { run with actions := WorkerAction.ProcessMessage msg.Body ::
            WorkerAction.Ack msg.DeliveryTag false :: run.actions }

/-! ## The administrative HTTP handlers -/

/-- The struct `CreateTenantRequest`. -/
structure CreateTenantRequest where
  Name : String
  WorkerCount : Int

/-- The struct `UpdateConcurrencyRequest`. -/
structure UpdateConcurrencyRequest where
  WorkerCount : Int

/-- What a handler wrote to the `http.ResponseWriter`. -/
structure Response where
  status : Nat
  body : String
deriving DecidableEq, Repr

/-- The function `http.Error`: the status code, then the message and a newline. -/
def httpError (msg : String) (code : Nat) : Response :=
  { status := code, body := msg ++ "\n" }

/-- A key of `context.WithValue`: keys are compared as interface values, so a
key has a dynamic type besides its value. -/
structure CtxKey where
  typeName : String
  value : String
deriving DecidableEq, Repr

/-- A `context.Context` as the values attached to it, newest first. -/
abbrev Context := List (CtxKey × String)

/-- The method `Context.Value`: `none` is the nil interface. -/
def Context.Value : Context → CtxKey → Option String
  | [], _ => none
  | (k', v) :: rest, k => if k' = k then some v else Context.Value rest k

/-- The function `contextWithTenantID`: the key has the local type `key`. -/
def contextWithTenantID (ctx : Context) (tenantID : String) : Context :=
  ({ typeName := "key", value := "tenant_id" }, tenantID) :: ctx

/-- The struct `Server` (the message service apart), with the gauge
`metrics.WorkerCount` it writes to, by tenant label. -/
structure Server where
  tenantManager : TenantManager
  workerCountGauge : List (String × Int)

/-- The call `metrics.WorkerCount.WithLabelValues(label).Set(v)`. -/
def gaugeSet (g : List (String × Int)) (label : String) (v : Int) : List (String × Int) :=
  (label, v) :: g.filter (fun p => decide (p.1 ≠ label))

/-- The handler `Server.CreateTenant`; `decoded` is the result of decoding the
JSON body into a `CreateTenantRequest`. -/
def CreateTenant (s : Server) (decoded : Except GoError CreateTenantRequest) :
    Outcome Server Response :=
  match decoded with
  | Except.error err => Outcome.returned s (httpError err 400)
  | Except.ok req =>
    match AddTenant s.tenantManager req.Name req.WorkerCount none with
    | Outcome.returned tm (some err) =>
      Outcome.returned { s with tenantManager := tm } (httpError err 500)
    | Outcome.returned tm none =>
      Outcome.returned { s with tenantManager := tm } { status := 201, body := "" }
    | Outcome.panicked tm msg => Outcome.panicked { s with tenantManager := tm } msg
    | Outcome.blocked tm => Outcome.blocked { s with tenantManager := tm }

/-- The handler `Server.DeleteTenant`; `pathID` is `mux.Vars(r)["id"]` and `ctx`
the request context. The type assertion on a nil interface panics. -/
def DeleteTenant (s : Server) (pathID : String) (ctx : Context) : Outcome Server Response :=
  match ctx.Value { typeName := "string", value := "tenant_id" } with
  | none =>
    Outcome.panicked s "interface conversion: interface {} is nil, not string"
  | some ctxTenantID =>
    if pathID ≠ ctxTenantID then
      Outcome.returned s (httpError "Unauthorized" 403)
    else
      match RemoveTenant s.tenantManager pathID with
      | Outcome.returned tm (some err) =>
        Outcome.returned { s with tenantManager := tm } (httpError err 500)
      | Outcome.returned tm none =>
        Outcome.returned { s with tenantManager := tm } { status := 204, body := "" }
      | Outcome.panicked tm msg => Outcome.panicked { s with tenantManager := tm } msg
      | Outcome.blocked tm => Outcome.blocked { s with tenantManager := tm }

/-- The handler `Server.UpdateConcurrency`; `decoded` is the result of decoding
the JSON body into an `UpdateConcurrencyRequest`. -/
def UpdateConcurrency (s : Server) (pathID : String)
    (decoded : Except GoError UpdateConcurrencyRequest) : Outcome Server Response :=
  match decoded with
  | Except.error _ => Outcome.returned s (httpError "Invalid request body" 400)
  | Except.ok req =>
    if req.WorkerCount < 1 ∨ req.WorkerCount > 10 then
      Outcome.returned s (httpError "Worker count must be between 1 and 10" 400)
    else
      match GetTenant s.tenantManager pathID with
      | Outcome.returned tm none =>
        Outcome.returned { s with tenantManager := tm } (httpError "Tenant not found" 404)
      | Outcome.returned tm (some _) =>
        Outcome.returned
          { tenantManager := tm, workerCountGauge := gaugeSet s.workerCountGauge pathID req.WorkerCount }
          { status := 200, body := "" }
      | Outcome.panicked tm msg => Outcome.panicked { s with tenantManager := tm } msg
      | Outcome.blocked tm => Outcome.blocked { s with tenantManager := tm }

/-! ## Auxiliary definitions for the statements -/

/-- The consumer `AddTenant` builds for `tenantID` on manager `tm`. -/
def newConsumer (tm : TenantManager) (tenantID : String) (workerCount : Int)
    (handler : Option MessageHandler) : TenantConsumer :=
  { TenantID := tenantID, Channel := tm.amqpConn.channels,
    Queue := declaredName (queueNameOf tenantID), StopChan := StopChanState.isOpen,
    WorkerCount := workerCount, handler := handler }

/-- The connection after the channel, QoS and queue-declare calls of `AddTenant`
have succeeded. -/
def connDeclared (c : Connection) (tenantID : String) : Connection :=
  { calls := c.calls ++ [BrokerCall.Channel, BrokerCall.Qos c.channels 1 0 false,
      BrokerCall.QueueDeclare c.channels (queueNameOf tenantID) true false false false
        (deadLetterArgs tenantID)],
    channels := c.channels + 1, fault := c.fault }

/-- The `Consume` call of worker `i` of consumer `tc`. -/
def consumeCall (tc : TenantConsumer) (i : Nat) : BrokerCall :=
  BrokerCall.Consume tc.Channel tc.Queue (workerTag tc.TenantID i) false false false false

/-- The goroutine of worker `i` of consumer `tc`. -/
def workerOf (tc : TenantConsumer) (i : Nat) : Worker :=
  { TenantID := tc.TenantID, Channel := tc.Channel, Queue := tc.Queue,
    consumerTag := workerTag tc.TenantID i }

/-- A broker on which every call succeeds. -/
def healthy : Connection :=
  { calls := [], channels := 0, fault := fun _ _ => none }

/-- The manager after `AddTenant("acme", 2, nil)` on a fresh manager over a
healthy broker. -/
def acmeManager : TenantManager :=
  { mu := false,
    tenants := [("acme", { TenantID := "acme", Channel := 0, Queue := "tenant_acme_queue",
                           StopChan := StopChanState.isOpen, WorkerCount := 2,
                           handler := none })],
    amqpConn :=
      { calls := [BrokerCall.Channel, BrokerCall.Qos 0 1 0 false,
          BrokerCall.QueueDeclare 0 "tenant_acme_queue" true false false false
            [("x-dead-letter-exchange", "dlx"), ("x-dead-letter-routing-key", "dl.acme")],
          BrokerCall.Consume 0 "tenant_acme_queue" "acme-worker-0" false false false false,
          BrokerCall.Consume 0 "tenant_acme_queue" "acme-worker-1" false false false false],
        channels := 1, fault := fun _ _ => none },
    spawned := [{ TenantID := "acme", Channel := 0, Queue := "tenant_acme_queue",
                  consumerTag := "acme-worker-0" },
                { TenantID := "acme", Channel := 0, Queue := "tenant_acme_queue",
                  consumerTag := "acme-worker-1" }] }

/-- The server over `acmeManager`, with no gauge written yet. -/
def acmeServer : Server :=
  { tenantManager := acmeManager, workerCountGauge := [] }

/-- The deliveries a worker receives: those its selects observe before
`StopChan` or the closing of `msgs` ends the loop. -/
def received : List SelectEvent → List Delivery
  | SelectEvent.delivery msg :: rest => msg :: received rest
  | _ => []

/-- The settlement the worker owes a delivery: a single-message `Ack` when the
handler returns nil on its payload, a single-message `Nack` with requeue when
the handler returns an error. -/
def settlement (h : MessageHandler) (seen : List (List UInt8)) (msg : Delivery) :
    WorkerAction :=
  if (h.ProcessMessage seen msg.Body).isNone then WorkerAction.Ack msg.DeliveryTag false
  else WorkerAction.Nack msg.DeliveryTag false true

/-- The actions the worker owes a list of deliveries: for each one, in order,
one handler call on the raw body followed by its settlement. -/
def owedActions (h : MessageHandler) : List (List UInt8) → List Delivery → List WorkerAction
  | _, [] => []
  | seen, msg :: rest =>
    [WorkerAction.ProcessMessage msg.Body, settlement h seen msg]
      ++ owedActions h (seen ++ [msg.Body]) rest

/-- The payloads passed to the handler, in order. -/
def processedBodies : List WorkerAction → List (List UInt8)
  | [] => []
  | WorkerAction.ProcessMessage body :: rest => body :: processedBodies rest
  | _ :: rest => processedBodies rest

/-- Whether an action settles (acks or nacks) the delivery with tag `tag`. -/
def WorkerAction.settles (tag : Nat) : WorkerAction → Bool
  | WorkerAction.Ack t _ => decide (t = tag)
  | WorkerAction.Nack t _ _ => decide (t = tag)
  | WorkerAction.ProcessMessage _ => false

/-- Whether an action is an `Ack`. -/
def WorkerAction.isAck : WorkerAction → Bool
  | WorkerAction.Ack _ _ => true
  | _ => false

/-- Whether an action is a `Nack` with the given requeue flag. -/
def WorkerAction.isNack (requeue : Bool) : WorkerAction → Bool
  | WorkerAction.Nack _ _ r => decide (r = requeue)
  | _ => false

/-- Whether an action is a handler call or one of the two settlements the code
issues: `Ack(false)` and `Nack(false, true)`. -/
def WorkerAction.singleMessage : WorkerAction → Bool
  | WorkerAction.ProcessMessage _ => true
  | WorkerAction.Ack _ multiple => !multiple
  | WorkerAction.Nack _ multiple requeue => !multiple && requeue

/-- A handler that returns an error on every call. -/
def alwaysFails : MessageHandler :=
  { ProcessMessage := fun _ _ => some "boom" }

/-- A handler that returns an error on its first `k` calls and nil afterwards. -/
def failsFirst (k : Nat) : MessageHandler :=
  { ProcessMessage := fun seen _ => if seen.length < k then some "boom" else none }

/-- The same message delivered `k` times, as the broker does after each
requeue: the same body under the delivery tags 1, ..., k. -/
def redelivered (body : List UInt8) (k : Nat) : List Delivery :=
  (List.range k).map (fun i => { DeliveryTag := i + 1, Body := body })

/-- The select events of a worker that receives `redelivered body k`. -/
def redeliveries (body : List UInt8) (k : Nat) : List SelectEvent :=
  (redelivered body k).map SelectEvent.delivery

/-- A broker that fails the `Consume` call tagged "acme-worker-1" and lets every
other call succeed. -/
def flaky : Connection :=
  { calls := [], channels := 0,
    fault := fun _ call =>
      match call with
      | BrokerCall.Consume _ _ consumer _ _ _ _ =>
        if consumer = "acme-worker-1" then some "consumer limit reached" else none
      | _ => none }

/-! ## Messages: repository, service and handler -/

/-- The struct `models.Message`. -/
structure Message where
  ID : String
  TenantID : String
  Content : String
  CreatedAt : String
  UpdatedAt : String
deriving DecidableEq, Repr

/-- The arguments `$1`, `$2`, `$3` of the query of `ListMessagesWithCursor`. -/
structure Query where
  tenantID : String
  cursor : String
  limit : Int
deriving DecidableEq, Repr

/-- The columns id, tenant_id, payload, created_at of one result row. -/
structure Row where
  id : String
  tenantID : String
  payload : String
  createdAt : String
deriving DecidableEq, Repr

/-- A `*sql.Rows`: for each row `rows.Next()` yields, what `rows.Scan` gives, and
the value of `rows.Err()` once `rows.Next()` returns false. -/
structure Rows where
  scans : List (Except GoError Row)
  err : Option GoError

/-- The `*sql.DB`: `queries` is the log of queries issued so far (oldest first)
and `reply` the answer of `QueryContext` to a query given the queries before it. -/
structure DB where
  queries : List Query
  reply : List Query → Query → Except GoError Rows

/-- The struct `MessageRepository`. -/
structure MessageRepository where
  db : DB

/-- The loop `for rows.Next()` of `ListMessagesWithCursor`: scan each row into a
message and append it; a scan error ends the call. -/
def scanRows : List (Except GoError Row) → List Message → Except GoError (List Message)
  | [], messages => Except.ok messages
  | Except.error err :: _, _ => Except.error ("failed to scan message row: " ++ err)
  | Except.ok row :: rest, messages =>
    scanRows rest (messages ++ [{ ID := row.id, TenantID := row.tenantID,
                                  Content := row.payload, CreatedAt := row.createdAt,
                                  UpdatedAt := "" }])

/-- The method `MessageRepository.ListMessagesWithCursor`: the messages and the
cursor it was given, or an error. A nil slice is the empty list. -/
def MessageRepository.ListMessagesWithCursor (r : MessageRepository)
    (tenantID cursor : String) (limit : Int) :
    MessageRepository × Except GoError (List Message × String) :=
  let q : Query := { tenantID := tenantID, cursor := cursor, limit := limit }
  let r1 : MessageRepository := { db := { r.db with queries := r.db.queries ++ [q] } }
  match r.db.reply r.db.queries q with
  | Except.error err => (r1, Except.error ("failed to query messages: " ++ err))
  | Except.ok rows =>
    match scanRows rows.scans [] with
    | Except.error err => (r1, Except.error err)
    | Except.ok messages =>
      match rows.err with
      | some err => (r1, Except.error ("error iterating message rows: " ++ err))
      | none => (r1, Except.ok (messages, cursor))

/-- The struct `MessageService`, with the label pairs under which it has
incremented the counter `metrics.MessageProcessed` so far. -/
structure MessageService where
  repo : MessageRepository
  processed : List (String × String)

/-- The method `MessageService.ListMessages`: the messages, the next cursor and
the error it returns. An index outside the slice panics. -/
def MessageService.ListMessages (ms : MessageService) (tenantID cursor : String)
    (limit : Int) : Outcome MessageService (List Message × String × Option GoError) :=
  let limit1 : Int := if limit ≤ 0 then 10 else limit
  let limit2 : Int := if limit1 > 100 then 100 else limit1
  match ms.repo.ListMessagesWithCursor tenantID cursor (limit2 + 1) with
  | (repo1, Except.error err) => Outcome.returned { ms with repo := repo1 } ([], "", some err)
  | (repo1, Except.ok (messages, _)) =>
    if (messages.length : Int) > limit2 then
      match messages[(limit2 - 1).toNat]? with
      | none => Outcome.panicked { ms with repo := repo1 } "index out of range"
      | some lastMessage =>
        Outcome.returned
          { repo := repo1, processed := ms.processed ++ [(tenantID, "listed")] }
          (messages.take limit2.toNat, lastMessage.ID, none)
    else
      Outcome.returned
        { repo := repo1, processed := ms.processed ++ [(tenantID, "listed")] }
        (messages, "", none)

/-- The function `strconv.Atoi` on a 64-bit platform: an optional sign and then
one or more decimal digits, within the range of int64. -/
def Atoi (s : String) : Except GoError Int :=
  let signed : Bool × List Char :=
    match s.data with
    | '-' :: rest => (true, rest)
    | '+' :: rest => (false, rest)
    | rest => (false, rest)
  if signed.2 = [] ∨ ¬ signed.2.all Char.isDigit then
    Except.error "strconv.Atoi: invalid syntax"
  else
    let n : Nat := signed.2.foldl (fun acc c => acc * 10 + (c.toNat - 48)) 0
    let v : Int := if signed.1 then -(n : Int) else (n : Int)
    if v < -9223372036854775808 ∨ v > 9223372036854775807 then
      Except.error "strconv.Atoi: value out of range"
    else Except.ok v

/-- The struct `ListMessagesResponse`. -/
structure ListMessagesResponse where
  Messages : List Message
  NextCursor : String
deriving DecidableEq, Repr

/-- The handler `Server.ListMessages`; `cursorParam` and `limitParam` are the
query parameters `cursor` and `limit` (empty when absent), `ctx` is the request
context and `encode` the JSON encoding of the response body. It runs on the
server and its message service. -/
def Server.ListMessages (s : Server) (ms : MessageService)
    (encode : ListMessagesResponse → String) (cursorParam limitParam : String)
    (ctx : Context) : Outcome (Server × MessageService) Response :=
  let limit : Int :=
    if limitParam ≠ "" then
      match Atoi limitParam with
      | Except.ok parsed => if parsed > 0 ∧ parsed ≤ 100 then parsed else 10
      | Except.error _ => 10
    else 10
  match ctx.Value { typeName := "string", value := "tenant_id" } with
  | none =>
    Outcome.panicked (s, ms) "interface conversion: interface {} is nil, not string"
  | some tenantID =>
    match ms.ListMessages tenantID cursorParam limit with
    | Outcome.returned ms1 (_, _, some err) => Outcome.returned (s, ms1) (httpError err 500)
    | Outcome.returned ms1 (messages, nextCursor, none) =>
      Outcome.returned (s, ms1)
        { status := 200, body := encode { Messages := messages, NextCursor := nextCursor } }
    | Outcome.panicked ms1 msg => Outcome.panicked (s, ms1) msg
    | Outcome.blocked ms1 => Outcome.blocked (s, ms1)

/-- The middleware `Server.loggingMiddleware`: it calls the next handler and
then prints a log line. -/
def loggingMiddleware {σ : Type} (next : σ → Context → Outcome σ Response) :
    σ → Context → Outcome σ Response :=
  next

/-- The middleware `Server.authMiddleware`; `xTenantID` is
`r.Header.Get("X-Tenant-ID")` (empty when absent) and `ctx` the context of the
incoming request. -/
def authMiddleware {σ : Type} (next : σ → Context → Outcome σ Response) (s : σ)
    (xTenantID : String) (ctx : Context) : Outcome σ Response :=
  if xTenantID = "" then Outcome.returned s (httpError "Missing tenant ID" 401)
  else next s (contextWithTenantID ctx xTenantID)

/-- The route `DELETE /api/v1/tenants/{id}` behind the middlewares of `NewServer`. -/
def serveDeleteTenant (s : Server) (xTenantID pathID : String) (ctx : Context) :
    Outcome Server Response :=
  authMiddleware (loggingMiddleware (fun s1 c => DeleteTenant s1 pathID c)) s xTenantID ctx

/-- The route `GET /api/v1/messages` behind the middlewares of `NewServer`. -/
def serveListMessages (s : Server) (ms : MessageService)
    (encode : ListMessagesResponse → String) (xTenantID cursorParam limitParam : String)
    (ctx : Context) : Outcome (Server × MessageService) Response :=
  authMiddleware
    (loggingMiddleware (fun st c => Server.ListMessages st.1 st.2 encode cursorParam limitParam c))
    (s, ms) xTenantID ctx

/-- A database that answers every query for tenant "acme" with the three rows
m1, m2, m3. -/
def threeRows : DB :=
  { queries := [],
    reply := fun _ _ =>
      Except.ok { scans := [Except.ok { id := "m1", tenantID := "acme", payload := "a",
                                        createdAt := "t1" },
                            Except.ok { id := "m2", tenantID := "acme", payload := "b",
                                        createdAt := "t2" },
                            Except.ok { id := "m3", tenantID := "acme", payload := "c",
                                        createdAt := "t3" }],
                  err := none } }

/-- A database whose every query fails. -/
def brokenDB : DB :=
  { queries := [], reply := fun _ _ => Except.error "connection refused" }

/-- A broker that fails every `QueueDelete` and lets every other call succeed. -/
def noDelete : Connection :=
  { calls := [], channels := 0,
    fault := fun _ call =>
      match call with
      | BrokerCall.QueueDelete _ _ _ _ _ => some "channel closed"
      | _ => none }

/-- The limit as the service clamps it: a limit of 0 or less becomes 10, a
limit above 100 becomes 100. -/
def clampedLimit (limit : Int) : Int :=
  if limit ≤ 0 then 10 else if limit > 100 then 100 else limit

/-- The manager after `AddTenant("acme", 2, nil)` on a fresh manager over the
broker `noDelete`. -/
def stuckManager : TenantManager :=
  { acmeManager with amqpConn := { acmeManager.amqpConn with fault := noDelete.fault } }

/-- The messages scanned from the rows of `threeRows`. -/
def threeMessages : List Message :=
  [{ ID := "m1", TenantID := "acme", Content := "a", CreatedAt := "t1", UpdatedAt := "" },
   { ID := "m2", TenantID := "acme", Content := "b", CreatedAt := "t2", UpdatedAt := "" },
   { ID := "m3", TenantID := "acme", Content := "c", CreatedAt := "t3", UpdatedAt := "" }]

/-! ## Lemmas on the registry and on `AddTenant` -/

theorem Registry.get_set_self (m : Registry) (k : String) (v : TenantConsumer) :
    (Registry.set m k v).get k = some v := by
  simp [Registry.set, Registry.get]

/-- Shape of a successful `AddTenant`: the mutex was free, the tenant was not
registered, `startWorkers` succeeded on the declared connection, and the new
state holds the new consumer. -/
theorem AddTenant_success_shape {tm tm1 : TenantManager} {t : String} {n : Int}
    {h : Option MessageHandler}
    (hok : AddTenant tm t n h = Outcome.returned tm1 none) :
    tm.mu = false ∧ tm.tenants.get t = none ∧
    ∃ c4 sp,
      startWorkers (newConsumer tm t n h) (connDeclared tm.amqpConn t) tm.spawned
        = (c4, sp, none) ∧
      tm1 = { mu := false, tenants := tm.tenants.set t (newConsumer tm t n h),
              amqpConn := c4, spawned := sp } := by
  unfold AddTenant at hok
  cases hmu : tm.mu with
  | true => simp [TenantManager.Lock, hmu] at hok
  | false =>
    simp only [TenantManager.Lock, hmu] at hok
    simp only [Bool.false_eq_true, if_false, deferUnlock, Outcome.returned.injEq] at hok
    obtain ⟨h1, h2⟩ := hok
    unfold AddTenantLocked at h1 h2
    cases hget : tm.tenants.get t with
    | some c => simp [hget] at h2
    | none =>
      cases hch : tm.amqpConn.fault tm.amqpConn.calls BrokerCall.Channel with
      | some e => simp [hget, Connection.Channel, hch] at h2
      | none =>
        cases hq : tm.amqpConn.fault (tm.amqpConn.calls ++ [BrokerCall.Channel])
            (BrokerCall.Qos tm.amqpConn.channels 1 0 false) with
        | some e => simp [hget, Connection.Channel, hch, Connection.issue, hq] at h2
        | none =>
          cases hd : tm.amqpConn.fault (tm.amqpConn.calls ++ [BrokerCall.Channel] ++
              [BrokerCall.Qos tm.amqpConn.channels 1 0 false])
              (BrokerCall.QueueDeclare tm.amqpConn.channels (queueNameOf t) true false false false
                (deadLetterArgs t)) with
          | some e =>
            simp [hget, Connection.Channel, hch, Connection.issue, hq,
              Connection.QueueDeclare] at h2 hd
            simp [hd] at h2
          | none =>
            simp only [List.append_assoc, List.singleton_append] at hd
            simp only [hget, Connection.Channel, hch, Connection.issue, hq,
              Connection.QueueDeclare, hd, Option.isSome_none, Bool.false_eq_true, if_false,
              List.append_assoc, List.singleton_append, List.cons_append, List.nil_append]
              at h1 h2
            refine ⟨rfl, rfl, ?_⟩
            simp only [newConsumer, connDeclared]
            generalize startWorkers _ _ _ = r at h1 h2
            obtain ⟨c4, sp, e⟩ := r
            cases e with
            | some e => simp at h2
            | none => exact ⟨c4, sp, rfl, by simpa [TenantManager.Unlock] using h1.symm⟩

/-! ## C1: a second `AddTenant` for the same tenant -/

/-- C1: if `AddTenant(t, n, h)` returns nil, an immediately following
`AddTenant(t, n, h)` returns the error "tenant t already exists" and leaves the
whole manager state as it was: the registry (with the entry for `t`), the log
of broker calls, hence no broker call is issued, and the started goroutines. -/
theorem AddTenant_twice_alreadyExists (tm tm1 : TenantManager) (t : String) (n : Int)
    (h : Option MessageHandler)
    (hok : AddTenant tm t n h = Outcome.returned tm1 none) :
    AddTenant tm1 t n h
      = Outcome.returned tm1 (some ("tenant " ++ t ++ " already exists")) := by
  obtain ⟨_, _, c4, sp, _, rfl⟩ := AddTenant_success_shape hok
  simp [AddTenant, TenantManager.Lock, AddTenantLocked, Registry.get_set_self, deferUnlock,
    TenantManager.Unlock]

/-- C1 at tenant "acme" with two workers on a fresh manager. -/
theorem AddTenant_twice_alreadyExists_witness :
    AddTenant (NewTenantManager healthy) "acme" 2 none = Outcome.returned acmeManager none ∧
    AddTenant acmeManager "acme" 2 none
      = Outcome.returned acmeManager (some "tenant acme already exists") :=
  ⟨rfl, AddTenant_twice_alreadyExists (NewTenantManager healthy) acmeManager "acme" 2 none rfl⟩

/-! ## C2: worker counts outside [1,10] -/

/-- C2 (the code does otherwise): `AddTenant` has no check of `workerCount`. On
a fresh manager over a healthy broker `AddTenant("acme", 0, nil)` and
`AddTenant("acme", 11, nil)` both return nil and register a consumer whose
`WorkerCount` is 0, with no worker started, and 11, with 11 workers started;
`CreateTenant` answers 201 to a request with `worker_count` 0. -/
theorem AddTenant_accepts_any_workerCount :
    (∃ tm1 c, AddTenant (NewTenantManager healthy) "acme" 0 none = Outcome.returned tm1 none ∧
      tm1.tenants.get "acme" = some c ∧ c.WorkerCount = 0 ∧ tm1.spawned.length = 0) ∧
    (∃ tm1 c, AddTenant (NewTenantManager healthy) "acme" 11 none = Outcome.returned tm1 none ∧
      tm1.tenants.get "acme" = some c ∧ c.WorkerCount = 11 ∧ tm1.spawned.length = 11) ∧
    (∃ s1 c, CreateTenant { tenantManager := NewTenantManager healthy, workerCountGauge := [] }
        (Except.ok { Name := "acme", WorkerCount := 0 })
        = Outcome.returned s1 { status := 201, body := "" } ∧
      s1.tenantManager.tenants.get "acme" = some c ∧ c.WorkerCount = 0) :=
  ⟨⟨_, _, rfl, rfl, rfl, rfl⟩, ⟨_, _, rfl, rfl, rfl, rfl⟩, ⟨_, _, rfl, rfl, rfl⟩⟩

/-! ## C3: `RemoveTenant` -/

theorem Registry.get_delete (m : Registry) (k k' : String) :
    (Registry.delete m k).get k' = if k' = k then none else m.get k' := by
  induction m with
  | nil => simp [Registry.delete, Registry.get]
  | cons p rest ih =>
    obtain ⟨a, v⟩ := p
    simp only [Registry.delete] at ih ⊢
    by_cases hak : a = k
    · subst hak
      simp only [List.filter_cons, ne_eq, not_true_eq_false, decide_False, Bool.false_eq_true,
        if_false, ih, Registry.get]
      by_cases hk : k' = a
      · simp [hk]
      · have : ¬ a = k' := fun h => hk h.symm
        simp [hk, this]
    · simp only [List.filter_cons, ne_eq, hak, not_false_eq_true, decide_True, if_true,
        Registry.get, ih]
      by_cases hk : a = k'
      · have : ¬ k' = k := by rw [← hk]; exact hak
        simp [hk, this]
      · simp [hk]

theorem Registry.delete_modify (m : Registry) (k : String)
    (f : TenantConsumer → TenantConsumer) :
    Registry.delete (Registry.modify m k f) k = Registry.delete m k := by
  induction m with
  | nil => rfl
  | cons p rest ih =>
    obtain ⟨a, v⟩ := p
    simp only [Registry.delete, Registry.modify] at ih ⊢
    by_cases hak : a = k
    · simpa [hak] using ih
    · simpa [hak] using ih

/-- C3: on a manager whose mutex is free,
(1) if `t` is registered with a consumer whose stop channel is open (as it is
until a `RemoveTenant(t)` has run) and the broker lets the queue deletion and
the channel close succeed, then `RemoveTenant(t)` returns nil, the registry
afterwards is the old one without the entry for `t` (every other key reads as
before), and a second `RemoveTenant(t)` returns "tenant t not found" and
changes nothing;
(2) if `t` is not registered, `RemoveTenant(t)` returns "tenant t not found"
and changes nothing;
(3) if the manager is the result of a successful `AddTenant(t, n, h)`, then `t`
is registered with its stop channel open, so (1) applies to it. -/
theorem RemoveTenant_then_notFound (tm : TenantManager) (t : String) (hmu : tm.mu = false) :
    (∀ c : TenantConsumer, tm.tenants.get t = some c → c.StopChan = StopChanState.isOpen →
      tm.amqpConn.fault tm.amqpConn.calls
        (BrokerCall.QueueDelete c.Channel c.Queue false false false) = none →
      tm.amqpConn.fault
        (tm.amqpConn.calls ++ [BrokerCall.QueueDelete c.Channel c.Queue false false false])
        (BrokerCall.ChannelClose c.Channel) = none →
      ∃ tm1, RemoveTenant tm t = Outcome.returned tm1 none ∧
        tm1.tenants = Registry.delete tm.tenants t ∧
        (∀ k, tm1.tenants.get k = if k = t then none else tm.tenants.get k) ∧
        RemoveTenant tm1 t = Outcome.returned tm1 (some ("tenant " ++ t ++ " not found"))) ∧
    (tm.tenants.get t = none →
      RemoveTenant tm t = Outcome.returned tm (some ("tenant " ++ t ++ " not found"))) ∧
    (∀ (tm0 : TenantManager) (n : Int) (h : Option MessageHandler),
      AddTenant tm0 t n h = Outcome.returned tm none →
      ∃ c, tm.tenants.get t = some c ∧ c.StopChan = StopChanState.isOpen) := by
  have hnf : ∀ tm' : TenantManager, tm'.mu = false → tm'.tenants.get t = none →
      RemoveTenant tm' t = Outcome.returned tm' (some ("tenant " ++ t ++ " not found")) := by
    intro tm' hmu' hget
    obtain ⟨mu, tenants, conn, sp⟩ := tm'
    simp only at hmu' hget
    subst hmu'
    simp [RemoveTenant, TenantManager.Lock, RemoveTenantLocked, hget, deferUnlock,
      TenantManager.Unlock]
  refine ⟨?_, hnf tm hmu, ?_⟩
  swap
  · intro tm0 n h hadd
    obtain ⟨_, _, c4, sp, _, rfl⟩ := AddTenant_success_shape hadd
    exact ⟨newConsumer tm0 t n h, Registry.get_set_self _ _ _, rfl⟩
  intro c hget hopen hdel hclose
  obtain ⟨mu, tenants, conn, sp⟩ := tm
  simp only at hmu hget hdel hclose
  subst hmu
  refine ⟨{ mu := false, tenants := Registry.delete tenants t,
            amqpConn := { conn with calls := conn.calls ++
              [BrokerCall.QueueDelete c.Channel c.Queue false false false,
               BrokerCall.ChannelClose c.Channel] },
            spawned := sp }, ?_, rfl, ?_, ?_⟩
  · simp [RemoveTenant, TenantManager.Lock, RemoveTenantLocked, hget, hopen, deferUnlock,
      TenantManager.Unlock, Connection.issue, hdel, hclose, Registry.delete_modify]
  · intro k
    exact Registry.get_delete tenants t k
  · apply hnf
    · rfl
    · simp [Registry.get_delete]

/-- C3 at the manager holding "acme", which `AddTenant` produced: removing
"acme" twice, and removing the unregistered "ghost". -/
theorem RemoveTenant_then_notFound_witness :
    (∃ tm1, RemoveTenant acmeManager "acme" = Outcome.returned tm1 none ∧
        tm1.tenants = Registry.delete acmeManager.tenants "acme" ∧
        (∀ k, tm1.tenants.get k = if k = "acme" then none else acmeManager.tenants.get k) ∧
        RemoveTenant tm1 "acme"
          = Outcome.returned tm1 (some ("tenant " ++ "acme" ++ " not found"))) ∧
    RemoveTenant acmeManager "ghost"
      = Outcome.returned acmeManager (some ("tenant " ++ "ghost" ++ " not found")) ∧
    (∃ c, acmeManager.tenants.get "acme" = some c ∧ c.StopChan = StopChanState.isOpen) :=
  ⟨(RemoveTenant_then_notFound acmeManager "acme" rfl).1 _ rfl rfl rfl rfl,
   (RemoveTenant_then_notFound acmeManager "ghost" rfl).2.1 rfl,
   (RemoveTenant_then_notFound acmeManager "acme" rfl).2.2 (NewTenantManager healthy) 2 none rfl⟩

/-! ## C4: the concurrency update -/

/-- C4 (the code does otherwise): on the server holding "acme" with 2 workers,
`UpdateConcurrency` with `worker_count` 5 answers 200 and writes 5 to the gauge,
but the manager is left as it was: `GetTenant("acme")` still reports
`WorkerCount` 2, and no `Consume` call was issued and no worker started. -/
theorem UpdateConcurrency_leaves_manager_untouched :
    UpdateConcurrency acmeServer "acme" (Except.ok { WorkerCount := 5 })
      = Outcome.returned { tenantManager := acmeManager, workerCountGauge := [("acme", 5)] }
          { status := 200, body := "" } ∧
    (∃ c, GetTenant acmeManager "acme" = Outcome.returned acmeManager (some c) ∧
      c.WorkerCount = 2) ∧
    acmeManager.spawned.length = 2 :=
  ⟨rfl, ⟨_, rfl, rfl⟩, rfl⟩

/-! ## C5: `Close` -/

/-- C5 (the code does otherwise): `Close` takes `tm.mu` and then calls
`RemoveTenant`, which takes `tm.mu` again. On a manager whose mutex is free
and whose registry is not empty, `Close` never returns, whatever the order in
which the range statement visits the keys: it blocks in the first
`RemoveTenant` with the mutex held, the registry and the broker log as they
were, so no tenant is removed and the connection is not closed. -/
theorem Close_blocks_on_registered_tenants (tm : TenantManager) (hmu : tm.mu = false)
    (hne : tm.tenants ≠ []) :
    Close tm = Outcome.blocked { tm with mu := true } ∧
    ∀ (k : String) (ks : List String),
      CloseIn (k :: ks) tm = Outcome.blocked { tm with mu := true } := by
  have hin : ∀ (k : String) (ks : List String),
      CloseIn (k :: ks) tm = Outcome.blocked { tm with mu := true } := by
    intro k ks
    simp [CloseIn, TenantManager.Lock, hmu, CloseLocked, CloseLoop, RemoveTenant, deferUnlock]
  refine ⟨?_, hin⟩
  unfold Close
  obtain ⟨p, rest, hts⟩ := List.exists_cons_of_ne_nil hne
  have hkeys : tm.tenants.map Prod.fst = p.1 :: rest.map Prod.fst := by rw [hts]; rfl
  rw [hkeys]
  exact hin p.1 (rest.map Prod.fst)

/-- C5 at the manager holding "acme". -/
theorem Close_blocks_on_registered_tenants_witness :
    Close acmeManager = Outcome.blocked { acmeManager with mu := true } ∧
    ∀ (k : String) (ks : List String),
      CloseIn (k :: ks) acmeManager = Outcome.blocked { acmeManager with mu := true } :=
  Close_blocks_on_registered_tenants acmeManager rfl (by simp [acmeManager])

/-! ## C6: the worker loop -/

theorem workerLoop_actions (h : MessageHandler) (seen : List (List UInt8))
    (events : List SelectEvent) :
    (workerLoop (some h) seen events).actions = owedActions h seen (received events) := by
  induction events generalizing seen with
  | nil => rfl
  | cons e rest ih =>
    cases e with
    | stop => rfl
    | msgsClosed => rfl
    | delivery msg =>
      simp only [workerLoop, received, owedActions, settlement]
      cases hp : h.ProcessMessage seen msg.Body with
      | none => simp [ih]
      | some err => simp [ih]

theorem owedActions_settles (h : MessageHandler) (seen : List (List UInt8))
    (ds : List Delivery) (tag : Nat) :
    ((owedActions h seen ds).filter (WorkerAction.settles tag)).length
      = (ds.filter (fun d => decide (d.DeliveryTag = tag))).length := by
  induction ds generalizing seen with
  | nil => rfl
  | cons d rest ih =>
    simp only [owedActions, settlement, List.cons_append, List.nil_append]
    by_cases ht : d.DeliveryTag = tag
    · split <;> simp [List.filter_cons, WorkerAction.settles, ht, ih]
    · split <;> simp [List.filter_cons, WorkerAction.settles, ht, ih]

theorem filter_tag_length_one (ds : List Delivery)
    (hnd : (ds.map (fun d => d.DeliveryTag)).Nodup) (d : Delivery) (hd : d ∈ ds) :
    (ds.filter (fun d' => decide (d'.DeliveryTag = d.DeliveryTag))).length = 1 := by
  induction ds with
  | nil => simp at hd
  | cons x rest ih =>
    simp only [List.map_cons, List.nodup_cons, List.mem_map, not_exists, not_and] at hnd
    obtain ⟨hx, hrest⟩ := hnd
    rcases List.mem_cons.mp hd with rfl | hmem
    · have : rest.filter (fun d' => decide (d'.DeliveryTag = d.DeliveryTag)) = [] := by
        rw [List.filter_eq_nil_iff]
        intro a ha
        simpa using hx a ha
      simp [List.filter_cons, this]
    · have hne : ¬ x.DeliveryTag = d.DeliveryTag := fun h => hx d hmem h.symm
      simp [List.filter_cons, hne, ih hrest hmem]

theorem owedActions_processed (h : MessageHandler) (seen : List (List UInt8))
    (ds : List Delivery) :
    processedBodies (owedActions h seen ds) = ds.map (fun d => d.Body) := by
  induction ds generalizing seen with
  | nil => rfl
  | cons d rest ih =>
    simp only [owedActions, settlement, List.cons_append, List.nil_append, processedBodies,
      List.map_cons]
    split <;> simp [processedBodies, ih]

theorem owedActions_singleMessage (h : MessageHandler) (seen : List (List UInt8))
    (ds : List Delivery) :
    ∀ a ∈ owedActions h seen ds, a.singleMessage = true := by
  induction ds generalizing seen with
  | nil => simp [owedActions]
  | cons d rest ih =>
    intro a ha
    simp only [owedActions, settlement, List.cons_append, List.nil_append, List.mem_cons] at ha
    rcases ha with rfl | ha | ha
    · rfl
    · subst ha
      split <;> rfl
    · exact ih _ a ha

/-- C6: a worker with a (non-nil) handler `h`, on any sequence of select
events, does exactly this: for each delivery it receives, in order, one call of
the handler on the delivery's raw body followed by the settlement of that
delivery, `Ack(false)` when the handler returned nil and `Nack(false, true)`
when it returned an error. Hence the handler is called once per received
delivery, on its body; for every delivery tag the number of acks and nacks
with that tag equals the number of received deliveries with that tag (none
for a delivery that was not received, and exactly one, so never both an ack
and a nack, when the tags are pairwise distinct); and every ack or nack is
single-message, every nack requeues. -/
theorem worker_settles_each_delivery_once (h : MessageHandler) (seen : List (List UInt8))
    (events : List SelectEvent) :
    (workerLoop (some h) seen events).actions = owedActions h seen (received events) ∧
    processedBodies (workerLoop (some h) seen events).actions
      = (received events).map (fun d => d.Body) ∧
    (∀ tag : Nat,
      ((workerLoop (some h) seen events).actions.filter (WorkerAction.settles tag)).length
        = ((received events).filter (fun d => decide (d.DeliveryTag = tag))).length) ∧
    (∀ a ∈ (workerLoop (some h) seen events).actions, a.singleMessage = true) ∧
    (((received events).map (fun d => d.DeliveryTag)).Nodup →
      ∀ d ∈ received events,
        ((workerLoop (some h) seen events).actions.filter
          (WorkerAction.settles d.DeliveryTag)).length = 1) := by
  rw [workerLoop_actions]
  refine ⟨rfl, owedActions_processed h seen _, owedActions_settles h seen _,
    owedActions_singleMessage h seen _, ?_⟩
  intro hnd d hd
  rw [owedActions_settles]
  exact filter_tag_length_one _ hnd d hd

/-- C6 on two deliveries, the stop signal and a delivery that is never
received, with a handler that fails on its first call only: the actions of
the run, and, the delivery tags being pairwise distinct, exactly one
settlement of the delivery with tag 2. -/
theorem worker_settles_each_delivery_once_witness :
    (workerLoop (some (failsFirst 1)) []
        [SelectEvent.delivery { DeliveryTag := 1, Body := [104, 105] },
         SelectEvent.delivery { DeliveryTag := 2, Body := [7] },
         SelectEvent.stop,
         SelectEvent.delivery { DeliveryTag := 3, Body := [9] }]).actions
      = [WorkerAction.ProcessMessage [104, 105], WorkerAction.Nack 1 false true,
         WorkerAction.ProcessMessage [7], WorkerAction.Ack 2 false] ∧
    ((workerLoop (some (failsFirst 1)) []
        [SelectEvent.delivery { DeliveryTag := 1, Body := [104, 105] },
         SelectEvent.delivery { DeliveryTag := 2, Body := [7] },
         SelectEvent.stop,
         SelectEvent.delivery { DeliveryTag := 3, Body := [9] }]).actions.filter
      (WorkerAction.settles 2)).length = 1 :=
  have hrun := worker_settles_each_delivery_once (failsFirst 1) []
    [SelectEvent.delivery { DeliveryTag := 1, Body := [104, 105] },
     SelectEvent.delivery { DeliveryTag := 2, Body := [7] },
     SelectEvent.stop,
     SelectEvent.delivery { DeliveryTag := 3, Body := [9] }]
  ⟨hrun.1.trans (by decide),
   hrun.2.2.2.2 (by decide) { DeliveryTag := 2, Body := [7] } (by decide)⟩

/-! ## C7: redelivery -/

/-- No run of the worker contains a `Nack` without requeue. -/
theorem owedActions_no_deadLetter (h : MessageHandler) (seen : List (List UInt8))
    (ds : List Delivery) :
    ((owedActions h seen ds).filter (WorkerAction.isNack false)).length = 0 := by
  induction ds generalizing seen with
  | nil => rfl
  | cons d rest ih =>
    simp only [owedActions, settlement, List.cons_append, List.nil_append]
    split <;> simpa [List.filter_cons, WorkerAction.isNack] using ih _

theorem owedActions_allFail (h : MessageHandler)
    (hfail : ∀ seen body, h.ProcessMessage seen body ≠ none)
    (seen : List (List UInt8)) (ds : List Delivery) :
    ((owedActions h seen ds).filter (WorkerAction.isNack true)).length = ds.length ∧
    ((owedActions h seen ds).filter WorkerAction.isAck).length = 0 := by
  induction ds generalizing seen with
  | nil => exact ⟨rfl, rfl⟩
  | cons d rest ih =>
    have hsome : (h.ProcessMessage seen d.Body).isNone = false := by
      cases hp : h.ProcessMessage seen d.Body with
      | none => exact absurd hp (hfail _ _)
      | some e => rfl
    obtain ⟨ih1, ih2⟩ := ih (seen ++ [d.Body])
    simp only [owedActions, settlement, hsome, List.cons_append, List.nil_append]
    constructor
    · simp [List.filter_cons, WorkerAction.isNack, ih1]
    · simpa [List.filter_cons, WorkerAction.isAck] using ih2

theorem owedActions_failsThenSucceeds (h : MessageHandler) (m : Nat)
    (hfail : ∀ seen body, seen.length < m → h.ProcessMessage seen body ≠ none)
    (hsucc : ∀ seen body, seen.length = m → h.ProcessMessage seen body = none)
    (r : Nat) (seen : List (List UInt8)) (ds : List Delivery)
    (hseen : seen.length + r = m) (hds : ds.length = r + 1) :
    ((owedActions h seen ds).filter (WorkerAction.isNack true)).length = r ∧
    ((owedActions h seen ds).filter WorkerAction.isAck).length = 1 := by
  induction r generalizing seen ds with
  | zero =>
    match ds, hds with
    | [d], _ =>
      have hn : h.ProcessMessage seen d.Body = none := hsucc _ _ (by simpa using hseen)
      simp [owedActions, settlement, hn, List.filter_cons, WorkerAction.isNack,
        WorkerAction.isAck]
  | succ r ih =>
    match ds, hds with
    | d :: rest, hlen =>
      have hsome : (h.ProcessMessage seen d.Body).isNone = false := by
        cases hp : h.ProcessMessage seen d.Body with
        | none => exact absurd hp (hfail _ _ (by omega))
        | some e => rfl
      obtain ⟨ih1, ih2⟩ := ih (seen ++ [d.Body]) rest
        (by simp only [List.length_append, List.length_singleton]; omega)
        (by simpa using hlen)
      simp only [owedActions, settlement, hsome, List.cons_append, List.nil_append]
      constructor
      · simp [List.filter_cons, WorkerAction.isNack, ih1]
      · simpa [List.filter_cons, WorkerAction.isAck] using ih2

theorem received_redeliveries (body : List UInt8) (k : Nat) :
    (received (redeliveries body k)).length = k := by
  have : ∀ ds : List Delivery, received (ds.map SelectEvent.delivery) = ds := by
    intro ds
    induction ds with
    | nil => rfl
    | cons d rest ih => simp [received, ih]
  rw [redeliveries, this]
  simp [redelivered]

/-- C7 as stated fails: the worker has no redelivery limit. With a handler that
always fails, a message that is delivered six times is nacked with requeue six
times and never nacked without requeue; and no number bounds the nacks with
requeue of a message that keeps being redelivered. -/
theorem worker_requeues_beyond_any_limit :
    (workerLoop (some alwaysFails) [] (redeliveries [1, 2] 6)).actions
      = [WorkerAction.ProcessMessage [1, 2], WorkerAction.Nack 1 false true,
         WorkerAction.ProcessMessage [1, 2], WorkerAction.Nack 2 false true,
         WorkerAction.ProcessMessage [1, 2], WorkerAction.Nack 3 false true,
         WorkerAction.ProcessMessage [1, 2], WorkerAction.Nack 4 false true,
         WorkerAction.ProcessMessage [1, 2], WorkerAction.Nack 5 false true,
         WorkerAction.ProcessMessage [1, 2], WorkerAction.Nack 6 false true] ∧
    ¬ ∃ maxRedeliveries : Nat, ∀ k : Nat,
        ((workerLoop (some alwaysFails) [] (redeliveries [1, 2] k)).actions.filter
          (WorkerAction.isNack true)).length ≤ maxRedeliveries := by
  refine ⟨by decide, ?_⟩
  rintro ⟨m, hm⟩
  have h1 := hm (m + 1)
  rw [workerLoop_actions,
    (owedActions_allFail alwaysFails (by simp [alwaysFails]) [] _).1,
    received_redeliveries] at h1
  omega

/-- C7 as the code has it: (1) with a handler that fails on every call, the
worker nacks every delivery it receives with requeue, however many there are,
and never acks and never nacks without requeue; (2) with a handler that fails
on its first `m` calls and succeeds on the next, a message delivered `m + 1`
times gets `m` nacks with requeue, exactly one ack and no nack without
requeue. -/
theorem worker_requeues_every_failure (h : MessageHandler) (m : Nat) :
    ((∀ seen body, h.ProcessMessage seen body ≠ none) →
      ∀ (seen : List (List UInt8)) (events : List SelectEvent),
        ((workerLoop (some h) seen events).actions.filter (WorkerAction.isNack true)).length
          = (received events).length ∧
        ((workerLoop (some h) seen events).actions.filter WorkerAction.isAck).length = 0 ∧
        ((workerLoop (some h) seen events).actions.filter (WorkerAction.isNack false)).length
          = 0) ∧
    ((∀ seen body, seen.length < m → h.ProcessMessage seen body ≠ none) →
      (∀ seen body, seen.length = m → h.ProcessMessage seen body = none) →
      ∀ ds : List Delivery, ds.length = m + 1 →
        ((workerLoop (some h) [] (ds.map SelectEvent.delivery)).actions.filter
          (WorkerAction.isNack true)).length = m ∧
        ((workerLoop (some h) [] (ds.map SelectEvent.delivery)).actions.filter
          WorkerAction.isAck).length = 1 ∧
        ((workerLoop (some h) [] (ds.map SelectEvent.delivery)).actions.filter
          (WorkerAction.isNack false)).length = 0) := by
  constructor
  · intro hfail seen events
    rw [workerLoop_actions]
    exact ⟨(owedActions_allFail h hfail seen _).1, (owedActions_allFail h hfail seen _).2,
      owedActions_no_deadLetter h seen _⟩
  · intro hfail hsucc ds hds
    rw [workerLoop_actions]
    have hrec : received (ds.map SelectEvent.delivery) = ds := by
      clear hds
      induction ds with
      | nil => rfl
      | cons d rest ih => simp [received, ih]
    rw [hrec]
    obtain ⟨h1, h2⟩ := owedActions_failsThenSucceeds h m hfail hsucc m [] ds (by simp) hds
    exact ⟨h1, h2, owedActions_no_deadLetter h [] ds⟩

/-- C7 as the code has it, at a handler that always fails on six deliveries, and
at a handler that fails five times and then succeeds on six deliveries. -/
theorem worker_requeues_every_failure_witness :
    (((workerLoop (some alwaysFails) [] (redeliveries [1, 2] 6)).actions.filter
          (WorkerAction.isNack true)).length = (received (redeliveries [1, 2] 6)).length ∧
      ((workerLoop (some alwaysFails) [] (redeliveries [1, 2] 6)).actions.filter
          WorkerAction.isAck).length = 0 ∧
      ((workerLoop (some alwaysFails) [] (redeliveries [1, 2] 6)).actions.filter
          (WorkerAction.isNack false)).length = 0) ∧
    (((workerLoop (some (failsFirst 5)) []
          ((redelivered [1, 2] 6).map SelectEvent.delivery)).actions.filter (WorkerAction.isNack true)).length = 5 ∧
      ((workerLoop (some (failsFirst 5)) []
          ((redelivered [1, 2] 6).map SelectEvent.delivery)).actions.filter WorkerAction.isAck).length = 1 ∧
      ((workerLoop (some (failsFirst 5)) []
          ((redelivered [1, 2] 6).map SelectEvent.delivery)).actions.filter (WorkerAction.isNack false)).length = 0) :=
  ⟨(worker_requeues_every_failure alwaysFails 0).1 (by simp [alwaysFails]) []
      (redeliveries [1, 2] 6),
   (worker_requeues_every_failure (failsFirst 5) 5).2
      (by intro seen body hlt; simp [failsFirst, hlt])
      (by intro seen body heq; simp [failsFirst, heq])
      (redelivered [1, 2] 6) (by simp [redelivered])⟩

/-! ## Lemmas on `startWorkers` and on names -/

theorem startWorkersFrom_success (tc : TenantConsumer) (todo i : Nat) (conn c4 : Connection)
    (sp sp' : List Worker)
    (hok : startWorkersFrom tc todo i conn sp = (c4, sp', none)) :
    c4 = { conn with calls := conn.calls ++ (List.range todo).map (fun j => consumeCall tc (i + j)) }
    ∧ sp' = sp ++ (List.range todo).map (fun j => workerOf tc (i + j)) := by
  induction todo generalizing i conn sp with
  | zero =>
    simp only [startWorkersFrom, Prod.mk.injEq, and_true] at hok
    obtain ⟨rfl, rfl⟩ := hok
    simp
  | succ todo ih =>
    simp only [startWorkersFrom, Connection.issue] at hok
    cases hf : conn.fault conn.calls (BrokerCall.Consume tc.Channel tc.Queue
        (workerTag tc.TenantID i) false false false false) with
    | some e => simp [hf] at hok
    | none =>
      simp only [hf] at hok
      obtain ⟨h1, h2⟩ := ih _ _ _ hok
      refine ⟨?_, ?_⟩
      · rw [h1]
        simp [List.range_succ_eq_map, consumeCall, Nat.add_assoc, Nat.add_comm 1,
          Function.comp_def]
      · rw [h2]
        simp [List.range_succ_eq_map, workerOf, Nat.add_assoc, Nat.add_comm 1,
          Function.comp_def]

theorem startWorkersFrom_failure (tc : TenantConsumer) (todo i k : Nat) (conn : Connection)
    (sp : List Worker) (e : GoError) (hk : k < todo)
    (hf : conn.fault (conn.calls ++ (List.range k).map (fun j => consumeCall tc (i + j)))
      (consumeCall tc (i + k)) = some e) :
    (startWorkersFrom tc todo i conn sp).2.2 ≠ none := by
  induction todo generalizing i k conn sp with
  | zero => omega
  | succ todo ih =>
    simp only [startWorkersFrom, Connection.issue]
    cases hf0 : conn.fault conn.calls (BrokerCall.Consume tc.Channel tc.Queue
        (workerTag tc.TenantID i) false false false false) with
    | some e0 => simp
    | none =>
      simp only
      cases k with
      | zero =>
        simp [consumeCall, hf0] at hf
      | succ k =>
        apply ih (i + 1) k _ _ (by omega)
        simp only
        have : conn.calls ++ (List.range (k + 1)).map (fun j => consumeCall tc (i + j))
            = (conn.calls ++ [BrokerCall.Consume tc.Channel tc.Queue
                (workerTag tc.TenantID i) false false false false])
              ++ (List.range k).map (fun j => consumeCall tc (i + 1 + j)) := by
          simp [List.range_succ_eq_map, consumeCall, Nat.add_assoc, Nat.add_comm 1,
            Function.comp_def]
        rw [← this]
        have hik : i + 1 + k = i + (k + 1) := by omega
        rw [hik]
        exact hf

theorem AddTenant_returns (tm : TenantManager) (t : String) (n : Int)
    (h : Option MessageHandler) (hmu : tm.mu = false) :
    ∃ tm1 r, AddTenant tm t n h = Outcome.returned tm1 r := by
  simp [AddTenant, TenantManager.Lock, hmu, deferUnlock]

theorem AddTenantLocked_error_keeps_registry (tm : TenantManager) (t : String) (n : Int)
    (h : Option MessageHandler) :
    (AddTenantLocked tm t n h).2 ≠ none →
      (AddTenantLocked tm t n h).1.tenants = tm.tenants := by
  unfold AddTenantLocked
  repeat' split
  any_goals simp
  generalize startWorkers _ _ _ = r
  obtain ⟨c4, sp, e⟩ := r
  cases e <;> simp

theorem AddTenant_error_keeps_registry {tm tm1 : TenantManager} {t : String} {n : Int}
    {h : Option MessageHandler} {err : GoError}
    (hret : AddTenant tm t n h = Outcome.returned tm1 (some err)) :
    tm1.tenants = tm.tenants := by
  unfold AddTenant at hret
  cases hmu : tm.mu with
  | true => simp [TenantManager.Lock, hmu] at hret
  | false =>
    simp only [TenantManager.Lock, hmu] at hret
    simp only [Bool.false_eq_true, if_false, deferUnlock, Outcome.returned.injEq] at hret
    obtain ⟨h1, h2⟩ := hret
    subst h1
    have := AddTenantLocked_error_keeps_registry
      { mu := true, tenants := tm.tenants, amqpConn := tm.amqpConn, spawned := tm.spawned }
      t n h (by rw [h2]; simp)
    simpa [TenantManager.Unlock] using this

theorem string_append_cancel_left (a x y : String) (h : a ++ x = a ++ y) : x = y := by
  have hd := congrArg String.data h
  simp only [String.data_append] at hd
  exact String.ext (List.append_cancel_left hd)

theorem string_append_cancel_right (x y b : String) (h : x ++ b = y ++ b) : x = y := by
  have hd := congrArg String.data h
  simp only [String.data_append] at hd
  exact String.ext (List.append_cancel_right hd)

theorem queueNameOf_injective (a b : String) (h : queueNameOf a = queueNameOf b) : a = b := by
  unfold queueNameOf at h
  exact string_append_cancel_left _ _ _ (string_append_cancel_right _ _ _ h)

theorem declaredName_queueNameOf (t : String) : declaredName (queueNameOf t) = queueNameOf t := by
  unfold declaredName
  have hne : queueNameOf t ≠ "" := by
    intro h
    have hl := congrArg String.length h
    simp only [queueNameOf, String.length_append] at hl
    have h7 : "tenant_".length = 7 := by decide
    have h0 : "".length = 0 := by decide
    omega
  simp [hne]

theorem workerTag_injective_below_ten (t : String) (i j : Nat) (hi : i < 10) (hj : j < 10)
    (h : workerTag t i = workerTag t j) : i = j := by
  unfold workerTag at h
  have h2 : toString i = toString j := by
    apply string_append_cancel_left (t ++ "-worker-")
    exact h
  interval_cases i <;> interval_cases j <;> first | rfl | (exfalso; revert h2; decide)

theorem workerTags_nodup (t : String) (n : Nat) (hn : n ≤ 10) :
    ((List.range n).map (fun i => workerTag t i)).Nodup := by
  apply List.Nodup.map_on _ (List.nodup_range n)
  intro i hi j hj hij
  exact workerTag_injective_below_ten t i j (by have := List.mem_range.mp hi; omega)
    (by have := List.mem_range.mp hj; omega) hij

/-! ## C8: status codes of the administrative handlers -/

/-- C8 as stated fails: on the server holding "acme", creating "acme" again is
answered with 500, not 409, and deleting the unregistered "ghost" (with
"ghost" as the tenant of the request context) is answered with 500, not 404. -/
theorem duplicate_create_and_unknown_delete_answer_500 :
    CreateTenant acmeServer (Except.ok { Name := "acme", WorkerCount := 2 })
      = Outcome.returned acmeServer
          { status := 500, body := "tenant acme already exists\n" } ∧
    DeleteTenant acmeServer "ghost" [({ typeName := "string", value := "tenant_id" }, "ghost")]
      = Outcome.returned acmeServer { status := 500, body := "tenant ghost not found\n" } :=
  ⟨rfl, rfl⟩

/-- C8 as the code has it, on a server whose manager mutex is free:
`CreateTenant` answers 500 to an ID that is already registered, and 500 to
every other error of `AddTenant`; `DeleteTenant`, for a path ID equal to the
tenant of the request context, answers 500 to an ID that is not registered,
and 500 to every other error of `RemoveTenant`; `UpdateConcurrency` answers
400 to a worker count outside [1,10]. -/
theorem handlers_answer_500_to_manager_errors (s : Server)
    (hmu : s.tenantManager.mu = false) :
    (∀ (req : CreateTenantRequest) (c : TenantConsumer),
      s.tenantManager.tenants.get req.Name = some c →
      CreateTenant s (Except.ok req)
        = Outcome.returned s (httpError ("tenant " ++ req.Name ++ " already exists") 500)) ∧
    (∀ (req : CreateTenantRequest) (tm1 : TenantManager) (err : GoError),
      AddTenant s.tenantManager req.Name req.WorkerCount none
        = Outcome.returned tm1 (some err) →
      CreateTenant s (Except.ok req)
        = Outcome.returned { s with tenantManager := tm1 } (httpError err 500)) ∧
    (∀ (pathID : String) (ctx : Context),
      ctx.Value { typeName := "string", value := "tenant_id" } = some pathID →
      s.tenantManager.tenants.get pathID = none →
      DeleteTenant s pathID ctx
        = Outcome.returned s (httpError ("tenant " ++ pathID ++ " not found") 500)) ∧
    (∀ (pathID : String) (ctx : Context) (tm1 : TenantManager) (err : GoError),
      ctx.Value { typeName := "string", value := "tenant_id" } = some pathID →
      RemoveTenant s.tenantManager pathID = Outcome.returned tm1 (some err) →
      DeleteTenant s pathID ctx
        = Outcome.returned { s with tenantManager := tm1 } (httpError err 500)) ∧
    (∀ (pathID : String) (req : UpdateConcurrencyRequest),
      (req.WorkerCount < 1 ∨ req.WorkerCount > 10) →
      UpdateConcurrency s pathID (Except.ok req)
        = Outcome.returned s (httpError "Worker count must be between 1 and 10" 400)) := by
  obtain ⟨tm, gauge⟩ := s
  obtain ⟨mu, tenants, conn, sp⟩ := tm
  simp only at hmu
  subst hmu
  refine ⟨?_, ?_, ?_, ?_, ?_⟩
  · intro req c hget
    simp only at hget
    simp [CreateTenant, AddTenant, TenantManager.Lock, AddTenantLocked, hget, deferUnlock,
      TenantManager.Unlock]
  · intro req tm1 err hadd
    simp [CreateTenant, hadd]
  · intro pathID ctx hctx hget
    simp only at hget
    simp [DeleteTenant, hctx, RemoveTenant, TenantManager.Lock, RemoveTenantLocked, hget,
      deferUnlock, TenantManager.Unlock]
  · intro pathID ctx tm1 err hctx hrem
    simp [DeleteTenant, hctx, hrem]
  · intro pathID req hwc
    simp [UpdateConcurrency, hwc]

/-- C8 as the code has it, on the server holding "acme". -/
theorem handlers_answer_500_to_manager_errors_witness :
    CreateTenant acmeServer (Except.ok { Name := "acme", WorkerCount := 2 })
      = Outcome.returned acmeServer (httpError ("tenant " ++ "acme" ++ " already exists") 500) ∧
    DeleteTenant acmeServer "ghost" [({ typeName := "string", value := "tenant_id" }, "ghost")]
      = Outcome.returned acmeServer (httpError ("tenant " ++ "ghost" ++ " not found") 500) ∧
    UpdateConcurrency acmeServer "acme" (Except.ok { WorkerCount := 11 })
      = Outcome.returned acmeServer (httpError "Worker count must be between 1 and 10" 400) :=
  ⟨(handlers_answer_500_to_manager_errors acmeServer rfl).1
      { Name := "acme", WorkerCount := 2 } _ rfl,
   (handlers_answer_500_to_manager_errors acmeServer rfl).2.2.1 "ghost" _ rfl rfl,
   (handlers_answer_500_to_manager_errors acmeServer rfl).2.2.2.2 "acme"
      { WorkerCount := 11 } (Or.inr (by decide))⟩

/-! ## C9: QoS and the tenant queue -/

/-- C9: a successful `AddTenant(id, n, h)` issues, on a fresh channel, exactly
the calls `Qos(1, 0, false)`, then `QueueDeclare` of the queue
"tenant_" + id + "_queue", durable, not auto-delete, not exclusive, with
dead-letter exchange "dlx" and dead-letter routing key "dl." + id, then the
`Consume` calls of its workers on that queue; the registered consumer's
`Queue` is that queue name; and another tenant ID gives another queue name
and another routing key. -/
theorem AddTenant_declares_tenant_queue (tm tm1 : TenantManager) (t : String) (n : Int)
    (h : Option MessageHandler)
    (hok : AddTenant tm t n h = Outcome.returned tm1 none) :
    tm1.amqpConn.calls = tm.amqpConn.calls ++
      [BrokerCall.Channel, BrokerCall.Qos tm.amqpConn.channels 1 0 false,
       BrokerCall.QueueDeclare tm.amqpConn.channels ("tenant_" ++ t ++ "_queue")
         true false false false
         [("x-dead-letter-exchange", "dlx"), ("x-dead-letter-routing-key", "dl." ++ t)]] ++
      (List.range n.toNat).map (fun i =>
        BrokerCall.Consume tm.amqpConn.channels ("tenant_" ++ t ++ "_queue")
          (t ++ "-worker-" ++ toString i) false false false false) ∧
    (∃ c, tm1.tenants.get t = some c ∧ c.Queue = "tenant_" ++ t ++ "_queue" ∧
      c.TenantID = t ∧ c.Channel = tm.amqpConn.channels) ∧
    (∀ t' : String, t' ≠ t →
      "tenant_" ++ t' ++ "_queue" ≠ "tenant_" ++ t ++ "_queue" ∧ "dl." ++ t' ≠ "dl." ++ t) := by
  obtain ⟨_, _, c4, sp, hsw, rfl⟩ := AddTenant_success_shape hok
  obtain ⟨hc4, _⟩ := startWorkersFrom_success _ _ _ _ _ _ _ hsw
  have hq := declaredName_queueNameOf t
  simp only [queueNameOf] at hq
  refine ⟨?_, ⟨newConsumer tm t n h, Registry.get_set_self _ _ _, ?_, rfl, rfl⟩, ?_⟩
  · subst hc4
    simp [connDeclared, consumeCall, newConsumer, hq, queueNameOf, deadLetterArgs, workerTag]
  · simp [newConsumer, hq, queueNameOf]
  · intro t' hne
    exact ⟨fun heq => hne (queueNameOf_injective t' t heq),
      fun heq => hne (string_append_cancel_left _ _ _ heq)⟩

/-- C9 at tenant "acme" with two workers on a fresh manager. -/
theorem AddTenant_declares_tenant_queue_witness :
    acmeManager.amqpConn.calls = (NewTenantManager healthy).amqpConn.calls ++
      [BrokerCall.Channel, BrokerCall.Qos 0 1 0 false,
       BrokerCall.QueueDeclare 0 ("tenant_" ++ "acme" ++ "_queue") true false false false
         [("x-dead-letter-exchange", "dlx"), ("x-dead-letter-routing-key", "dl." ++ "acme")]] ++
      (List.range (2 : Int).toNat).map (fun i =>
        BrokerCall.Consume 0 ("tenant_" ++ "acme" ++ "_queue")
          ("acme" ++ "-worker-" ++ toString i) false false false false) ∧
    (∃ c, acmeManager.tenants.get "acme" = some c ∧ c.Queue = "tenant_" ++ "acme" ++ "_queue" ∧
      c.TenantID = "acme" ∧ c.Channel = 0) ∧
    (∀ t' : String, t' ≠ "acme" →
      "tenant_" ++ t' ++ "_queue" ≠ "tenant_" ++ "acme" ++ "_queue" ∧
      "dl." ++ t' ≠ "dl." ++ "acme") :=
  AddTenant_declares_tenant_queue (NewTenantManager healthy) acmeManager "acme" 2 none rfl

/-! ## C10: the workers of a new tenant -/

/-- C10: for `1 ≤ n ≤ 10`,
(1) a successful `AddTenant(t, n, h)` starts exactly `n` worker goroutines
beyond those already running, on the tenant's channel and queue, registered by
exactly `n` `Consume` calls, with the consumer tags t + "-worker-" + i for
i = 0, ..., n-1 in this order, which are pairwise distinct;
(2) if the mutex is free and the broker fails the `Consume` call of some worker
`k < n`, `AddTenant` returns an error and the registry is as before. -/
theorem AddTenant_starts_exactly_n_workers (tm : TenantManager) (t : String) (n : Int)
    (h : Option MessageHandler) (hn1 : 1 ≤ n) (hn10 : n ≤ 10) :
    (∀ tm1 : TenantManager, AddTenant tm t n h = Outcome.returned tm1 none →
      ∃ ws : List Worker,
        tm1.spawned = tm.spawned ++ ws ∧
        (ws.length : Int) = n ∧
        ws = (List.range n.toNat).map (fun i =>
          ({ TenantID := t, Channel := tm.amqpConn.channels,
             Queue := "tenant_" ++ t ++ "_queue",
             consumerTag := t ++ "-worker-" ++ toString i } : Worker)) ∧
        (ws.map (fun w => w.consumerTag)).Nodup ∧
        tm1.amqpConn.calls = (connDeclared tm.amqpConn t).calls ++
          (List.range n.toNat).map (fun i =>
            BrokerCall.Consume tm.amqpConn.channels ("tenant_" ++ t ++ "_queue")
              (t ++ "-worker-" ++ toString i) false false false false)) ∧
    (tm.mu = false →
      ∀ (k : Nat) (e : GoError), (k : Int) < n →
        tm.amqpConn.fault
          ((connDeclared tm.amqpConn t).calls ++
            (List.range k).map (fun i =>
              BrokerCall.Consume tm.amqpConn.channels ("tenant_" ++ t ++ "_queue")
                (t ++ "-worker-" ++ toString i) false false false false))
          (BrokerCall.Consume tm.amqpConn.channels ("tenant_" ++ t ++ "_queue")
            (t ++ "-worker-" ++ toString k) false false false false) = some e →
        ∃ tm1 err, AddTenant tm t n h = Outcome.returned tm1 (some err) ∧
          tm1.tenants = tm.tenants) := by
  have hq := declaredName_queueNameOf t
  simp only [queueNameOf] at hq
  constructor
  · intro tm1 hok
    obtain ⟨_, _, c4, sp, hsw, rfl⟩ := AddTenant_success_shape hok
    obtain ⟨hc4, hsp⟩ := startWorkersFrom_success _ _ _ _ _ _ _ hsw
    have hws : (List.range n.toNat).map (fun j => workerOf (newConsumer tm t n h) (0 + j))
        = (List.range n.toNat).map (fun i =>
          ({ TenantID := t, Channel := tm.amqpConn.channels,
             Queue := "tenant_" ++ t ++ "_queue",
             consumerTag := t ++ "-worker-" ++ toString i } : Worker)) := by
      simp [workerOf, newConsumer, hq, queueNameOf, workerTag]
    refine ⟨_, ?_, ?_, rfl, ?_, ?_⟩
    · rw [← hws]
      exact hsp
    · simp only [List.length_map, List.length_range]
      omega
    · have hnd := workerTags_nodup t n.toNat (by omega)
      simpa [workerTag, Function.comp_def] using hnd
    · subst hc4
      simp [consumeCall, newConsumer, hq, queueNameOf, workerTag]
  · intro hmu k e hk hf
    obtain ⟨tm1, r, hret⟩ := AddTenant_returns tm t n h hmu
    cases r with
    | some err => exact ⟨tm1, err, hret, AddTenant_error_keeps_registry hret⟩
    | none =>
      exfalso
      obtain ⟨_, _, c4, sp, hsw, _⟩ := AddTenant_success_shape hret
      have hfail := startWorkersFrom_failure (newConsumer tm t n h) n.toNat 0 k
        (connDeclared tm.amqpConn t) tm.spawned e (by omega)
        (by simpa [connDeclared, consumeCall, newConsumer, hq, queueNameOf, workerTag] using hf)
      unfold startWorkers at hsw
      simp only [newConsumer] at hsw hfail
      rw [hsw] at hfail
      exact hfail rfl

/-- C10 at tenant "acme" with two workers: on a healthy broker, and on a broker
that fails the `Consume` call of worker 1. -/
theorem AddTenant_starts_exactly_n_workers_witness :
    (∃ ws : List Worker,
        acmeManager.spawned = (NewTenantManager healthy).spawned ++ ws ∧
        (ws.length : Int) = 2 ∧
        ws = (List.range (2 : Int).toNat).map (fun i =>
          ({ TenantID := "acme", Channel := (NewTenantManager healthy).amqpConn.channels,
             Queue := "tenant_" ++ "acme" ++ "_queue",
             consumerTag := "acme" ++ "-worker-" ++ toString i } : Worker)) ∧
        (ws.map (fun w => w.consumerTag)).Nodup ∧
        acmeManager.amqpConn.calls = (connDeclared (NewTenantManager healthy).amqpConn "acme").calls ++
          (List.range (2 : Int).toNat).map (fun i =>
            BrokerCall.Consume (NewTenantManager healthy).amqpConn.channels
              ("tenant_" ++ "acme" ++ "_queue")
              ("acme" ++ "-worker-" ++ toString i) false false false false)) ∧
    (∃ tm1 err, AddTenant (NewTenantManager flaky) "acme" 2 none
        = Outcome.returned tm1 (some err) ∧
      tm1.tenants = (NewTenantManager flaky).tenants) :=
  ⟨(AddTenant_starts_exactly_n_workers (NewTenantManager healthy) "acme" 2 none
      (by decide) (by decide)).1 acmeManager rfl,
   (AddTenant_starts_exactly_n_workers (NewTenantManager flaky) "acme" 2 none
      (by decide) (by decide)).2 rfl 1 "consumer limit reached" (by decide) rfl⟩

/-! ## C11: the tenant of the request context -/

/-- C11 (the code does otherwise): `contextWithTenantID` stores the tenant under
a key of the local type `key`, while the handlers look up the string key
"tenant_id". For every non-empty `X-Tenant-ID` header and every incoming
context that holds no value under the string key "tenant_id", the lookup of
the handlers in the context the middleware builds yields nil, so behind the
middlewares `DeleteTenant` panics in its type assertion for every path ID,
whether or not it equals the header (it answers neither 403 nor anything
else, and never reaches `RemoveTenant`), and `ListMessages` panics as well. -/
theorem tenant_lookup_fails_behind_authMiddleware (s : Server) (ms : MessageService)
    (encode : ListMessagesResponse → String)
    (xTenantID pathID cursorParam limitParam : String) (ctx : Context)
    (hheader : xTenantID ≠ "")
    (hbase : ctx.Value { typeName := "string", value := "tenant_id" } = none) :
    (contextWithTenantID ctx xTenantID).Value { typeName := "string", value := "tenant_id" }
      = none ∧
    serveDeleteTenant s xTenantID pathID ctx
      = Outcome.panicked s "interface conversion: interface {} is nil, not string" ∧
    serveListMessages s ms encode xTenantID cursorParam limitParam ctx
      = Outcome.panicked (s, ms) "interface conversion: interface {} is nil, not string" := by
  have hlookup : (contextWithTenantID ctx xTenantID).Value
      { typeName := "string", value := "tenant_id" } = none := by
    simp [contextWithTenantID, Context.Value, hbase]
  refine ⟨hlookup, ?_, ?_⟩
  · simp [serveDeleteTenant, authMiddleware, loggingMiddleware, hheader, DeleteTenant, hlookup]
  · simp [serveListMessages, authMiddleware, loggingMiddleware, hheader, Server.ListMessages,
      hlookup]

/-- C11 at the header "acme" on the server holding "acme": deleting "acme" and
listing messages. -/
theorem tenant_lookup_fails_behind_authMiddleware_witness :
    (contextWithTenantID [] "acme").Value { typeName := "string", value := "tenant_id" }
      = none ∧
    serveDeleteTenant acmeServer "acme" "acme" []
      = Outcome.panicked acmeServer "interface conversion: interface {} is nil, not string" ∧
    serveListMessages acmeServer { repo := { db := threeRows }, processed := [] }
        (fun _ => "") "acme" "" "2" []
      = Outcome.panicked (acmeServer, { repo := { db := threeRows }, processed := [] })
          "interface conversion: interface {} is nil, not string" :=
  tenant_lookup_fails_behind_authMiddleware acmeServer
    { repo := { db := threeRows }, processed := [] } (fun _ => "") "acme" "acme" "" "2" []
    (by decide) rfl


/-! ## C12: one page of messages -/

theorem clampedLimit_bounds (limit : Int) : 1 ≤ clampedLimit limit ∧ clampedLimit limit ≤ 100 := by
  unfold clampedLimit
  split
  · omega
  · split <;> omega

theorem clamp_steps (limit : Int) :
    (if (if limit ≤ 0 then (10 : Int) else limit) > 100 then (100 : Int)
      else (if limit ≤ 0 then (10 : Int) else limit)) = clampedLimit limit := by
  unfold clampedLimit
  by_cases h0 : limit ≤ 0
  · simp [h0]
  · simp [h0]

/-- C12: for every limit, with L the limit clamped to 10 when it is 0 or less
and to 100 when it is above 100, `MessageService.ListMessages` issues exactly
one query, for L + 1 rows. When the repository returns the list `rows`, the
service returns nil as error and the first min(L, len(rows)) rows in order;
the next cursor is the ID of the last returned message when len(rows) > L
and the empty string otherwise. When the repository returns an error, the
service returns no messages, the empty cursor and that error. -/
theorem ListMessages_returns_one_page (ms : MessageService) (tenantID cursor : String)
    (limit : Int) :
    (∀ (rows : List Message) (c : String),
      (ms.repo.ListMessagesWithCursor tenantID cursor (clampedLimit limit + 1)).2
        = Except.ok (rows, c) →
      ∃ ms1 next,
        ms.ListMessages tenantID cursor limit
          = Outcome.returned ms1
              (rows.take (min (clampedLimit limit).toNat rows.length), next, none) ∧
        ((clampedLimit limit).toNat < rows.length →
          ∃ m, (rows.take (min (clampedLimit limit).toNat rows.length)).getLast? = some m ∧
            next = m.ID) ∧
        (rows.length ≤ (clampedLimit limit).toNat → next = "") ∧
        ms1.repo.db.queries = ms.repo.db.queries ++
          [{ tenantID := tenantID, cursor := cursor, limit := clampedLimit limit + 1 }]) ∧
    (∀ err : GoError,
      (ms.repo.ListMessagesWithCursor tenantID cursor (clampedLimit limit + 1)).2
        = Except.error err →
      ∃ ms1,
        ms.ListMessages tenantID cursor limit = Outcome.returned ms1 ([], "", some err) ∧
        ms1.repo.db.queries = ms.repo.db.queries ++
          [{ tenantID := tenantID, cursor := cursor, limit := clampedLimit limit + 1 }]) := by
  obtain ⟨hL1, hL100⟩ := clampedLimit_bounds limit
  have hq : ∀ n : Int, (ms.repo.ListMessagesWithCursor tenantID cursor n).1.db.queries
      = ms.repo.db.queries ++ [{ tenantID := tenantID, cursor := cursor, limit := n }] := by
    intro n
    unfold MessageRepository.ListMessagesWithCursor
    simp only
    repeat' split
    all_goals rfl
  constructor
  · intro rows c hrows
    unfold MessageService.ListMessages
    simp only [clamp_steps]
    generalize hrep : ms.repo.ListMessagesWithCursor tenantID cursor (clampedLimit limit + 1)
      = rep at hrows
    have hq1 := hq (clampedLimit limit + 1)
    rw [hrep] at hq1
    obtain ⟨repo1, res⟩ := rep
    simp only at hrows hq1
    subst hrows
    simp only
    by_cases hlen : (rows.length : Int) > clampedLimit limit
    · have hlt : (clampedLimit limit).toNat < rows.length := by omega
      have hidx : (clampedLimit limit - 1).toNat < rows.length := by omega
      simp only [hlen, if_true, List.getElem?_eq_getElem hidx]
      refine ⟨{ repo := repo1, processed := ms.processed ++ [(tenantID, "listed")] },
        (rows[(clampedLimit limit - 1).toNat]).ID, ?_, ?_, ?_, hq1⟩
      · rw [Nat.min_eq_left (Nat.le_of_lt hlt)]
      · intro _
        refine ⟨rows[(clampedLimit limit - 1).toNat], ?_, rfl⟩
        rw [Nat.min_eq_left (Nat.le_of_lt hlt), List.getLast?_take]
        have hne : (clampedLimit limit).toNat ≠ 0 := by omega
        have hsub : (clampedLimit limit).toNat - 1 = (clampedLimit limit - 1).toNat := by omega
        rw [if_neg hne, hsub, List.getElem?_eq_getElem hidx]
        rfl
      · intro hle
        omega
    · have hle : rows.length ≤ (clampedLimit limit).toNat := by omega
      simp only [hlen, if_false]
      refine ⟨{ repo := repo1, processed := ms.processed ++ [(tenantID, "listed")] },
        "", ?_, ?_, ?_, hq1⟩
      · rw [Nat.min_eq_right hle, List.take_length]
      · intro hlt
        omega
      · intro _
        rfl
  · intro err herr
    unfold MessageService.ListMessages
    simp only [clamp_steps]
    generalize hrep : ms.repo.ListMessagesWithCursor tenantID cursor (clampedLimit limit + 1)
      = rep at herr
    have hq1 := hq (clampedLimit limit + 1)
    rw [hrep] at hq1
    obtain ⟨repo1, res⟩ := rep
    simp only at herr hq1
    subst herr
    exact ⟨{ ms with repo := repo1 }, rfl, hq1⟩

/-- C12 at limit 2 on a database with three rows, and on a database whose
queries fail. -/
theorem ListMessages_returns_one_page_witness :
    (∃ ms1 next,
      MessageService.ListMessages { repo := { db := threeRows }, processed := [] } "acme" "" 2
        = Outcome.returned ms1
            (threeMessages.take (min (clampedLimit 2).toNat threeMessages.length), next, none) ∧
      ((clampedLimit 2).toNat < threeMessages.length →
        ∃ m, (threeMessages.take (min (clampedLimit 2).toNat threeMessages.length)).getLast?
            = some m ∧ next = m.ID) ∧
      (threeMessages.length ≤ (clampedLimit 2).toNat → next = "") ∧
      ms1.repo.db.queries = threeRows.queries ++
        [{ tenantID := "acme", cursor := "", limit := clampedLimit 2 + 1 }]) ∧
    (∃ ms1,
      MessageService.ListMessages { repo := { db := brokenDB }, processed := [] } "acme" "" 2
        = Outcome.returned ms1 ([], "", some "failed to query messages: connection refused") ∧
      ms1.repo.db.queries = brokenDB.queries ++
        [{ tenantID := "acme", cursor := "", limit := clampedLimit 2 + 1 }]) :=
  ⟨(ListMessages_returns_one_page { repo := { db := threeRows }, processed := [] }
      "acme" "" 2).1 threeMessages "" rfl,
   (ListMessages_returns_one_page { repo := { db := brokenDB }, processed := [] }
      "acme" "" 2).2 "failed to query messages: connection refused" rfl⟩

/-! ## C13: the stop channel after a failed `RemoveTenant` -/

theorem Registry.get_modify_self (m : Registry) (k : String)
    (f : TenantConsumer → TenantConsumer) :
    (Registry.modify m k f).get k = (m.get k).map f := by
  induction m with
  | nil => rfl
  | cons p rest ih =>
    obtain ⟨a, v⟩ := p
    simp only [Registry.modify, List.map_cons] at ih ⊢
    by_cases hak : a = k
    · rw [if_pos hak]
      simp [Registry.get, hak]
    · rw [if_neg hak]
      simpa [Registry.get, hak] using ih

/-- C13 (the code does otherwise): `RemoveTenant` closes the stop channel before
it deletes the queue and returns early when the deletion fails. On a manager
whose mutex is free, for a registered tenant `t` with an open stop channel
and a broker that fails the `QueueDelete`: `RemoveTenant(t)` returns
"failed to delete queue: ..." and leaves `t` in the registry with its stop
channel closed, and the next `RemoveTenant(t)` panics with "close of closed
channel". -/
theorem failed_RemoveTenant_leaves_closed_StopChan (tm : TenantManager) (t : String)
    (c : TenantConsumer) (e : GoError)
    (hmu : tm.mu = false) (hget : tm.tenants.get t = some c)
    (hopen : c.StopChan = StopChanState.isOpen)
    (hfail : tm.amqpConn.fault tm.amqpConn.calls
      (BrokerCall.QueueDelete c.Channel c.Queue false false false) = some e) :
    ∃ tm1,
      RemoveTenant tm t = Outcome.returned tm1 (some ("failed to delete queue: " ++ e)) ∧
      tm1.tenants.get t = some { c with StopChan := StopChanState.isClosed } ∧
      RemoveTenant tm1 t = Outcome.panicked tm1 "close of closed channel" := by
  obtain ⟨mu, tenants, conn, sp⟩ := tm
  simp only at hmu hget hfail
  subst hmu
  refine ⟨{ mu := false, tenants := Registry.modify tenants t closeStopChan,
            amqpConn := { conn with calls := conn.calls ++
              [BrokerCall.QueueDelete c.Channel c.Queue false false false] },
            spawned := sp }, ?_, ?_, ?_⟩
  · simp [RemoveTenant, TenantManager.Lock, RemoveTenantLocked, hget, hopen, deferUnlock,
      TenantManager.Unlock, Connection.issue, hfail]
  · simp [Registry.get_modify_self, hget, closeStopChan]
  · simp [RemoveTenant, TenantManager.Lock, RemoveTenantLocked, Registry.get_modify_self, hget,
      closeStopChan, deferUnlock, TenantManager.Unlock]

/-- C13 at tenant "acme" on a broker that fails every `QueueDelete`: the
manager comes from `AddTenant`, the first `RemoveTenant` fails, the second
panics. -/
theorem failed_RemoveTenant_leaves_closed_StopChan_witness :
    AddTenant (NewTenantManager noDelete) "acme" 2 none = Outcome.returned stuckManager none ∧
    ∃ tm1,
      RemoveTenant stuckManager "acme"
        = Outcome.returned tm1 (some ("failed to delete queue: " ++ "channel closed")) ∧
      tm1.tenants.get "acme"
        = some { TenantID := "acme", Channel := 0, Queue := "tenant_acme_queue",
                 StopChan := StopChanState.isClosed, WorkerCount := 2, handler := none } ∧
      RemoveTenant tm1 "acme" = Outcome.panicked tm1 "close of closed channel" :=
  ⟨rfl, failed_RemoveTenant_leaves_closed_StopChan stuckManager "acme"
    { TenantID := "acme", Channel := 0, Queue := "tenant_acme_queue",
      StopChan := StopChanState.isOpen, WorkerCount := 2, handler := none }
    "channel closed" rfl rfl rfl rfl⟩

end MessagingSystem
